import Mathlib

/-!
Verification of the scoring and team-selection engine of `hbr-style-advisor`
(`hbr_advisor/recommender.py`, with its data model from `hbr_advisor/models.py`
and helpers from `hbr_advisor/utils.py`).

Embedding conventions:
* Python `float` is modelled by `ℚ` (exact rational arithmetic; all constants in
  the source are decimal literals, so every computation is exact).
* Python `dict` is modelled by an association list; `dict.get(k, default)`
  becomes a total lookup with a default, `k in d` becomes key membership, and
  dict construction with overwriting keeps the last value for a key (matching
  CPython's insertion-order semantics).
* Python `str | None` parameters that are only tested for truthiness
  (`enemy_name`, `preferred_weapon`, `preferred_element`) are modelled by
  `String`, with `""` playing the role of `None` (in the source, `None` and
  `""` behave identically at every use site of these parameters).
* `difflib.get_close_matches` (Python standard library, outside this
  repository) composed with the subsequent `style_by_name[...]` lookup is
  modelled by an abstract oracle field `fuzzy : String → List Style →
  Option Style` of the advisor; the stdlib guarantees the returned name is
  drawn from the candidate list, so the composite lookup cannot fail.
* `sorted(..., key=..., reverse=...)` is a stable sort; stable sorts are
  unique for a total preorder, so it is modelled by a stable insertion sort.
-/

/-! ## Generic string helpers -/

/-- Substring test on character lists: Python's `needle in hay`. -/
def containsAux (n : List Char) : List Char → Bool
  | [] => decide (n = [])
  | c :: rest => n.isPrefixOf (c :: rest) || containsAux n rest

/-- Python's `needle in hay` for strings. -/
def strContains (hay needle : String) : Bool :=
  containsAux needle.data hay.data

/-- Python `str.lower()` (ASCII case folding; the data's names are ASCII or
Japanese, where lowering is the identity). -/
def strLower (s : String) : String := ⟨s.data.map Char.toLower⟩

/-- Python `str.upper()` (ASCII case folding, as in `utils.rarity_score`). -/
def strUpper (s : String) : String := ⟨s.data.map Char.toUpper⟩

/-- Python `str.strip()`: drop leading and trailing whitespace. -/
def strTrim (s : String) : String :=
  ⟨((s.data.dropWhile Char.isWhitespace).reverse.dropWhile Char.isWhitespace).reverse⟩

/-- Python `s.startswith(q)`. -/
def strStarts (s q : String) : Bool := q.data.isPrefixOf s.data

/-- Python `sep.join(parts)`. -/
def joinSep (sep : String) : List String → String
  | [] => ""
  | [x] => x
  | x :: rest => x ++ sep ++ joinSep sep rest

/-- Keep the first occurrence of every string, dropping later duplicates
(auxiliary, carrying the set of names already seen). -/
def dedupStrAux (seen : List String) : List String → List String
  | [] => []
  | n :: rest =>
    if n ∈ seen then dedupStrAux seen rest else n :: dedupStrAux (n :: seen) rest

/-- First-occurrence ordered key list of a Python dict built by repeated
insertion (`dict.keys()`). -/
def dedupStr (l : List String) : List String := dedupStrAux [] l

/-! ## `utils.extract_percent_values`

The source scans `notes` with the regex `([-+]?\d+(?:\.\d+)?)\s*%` via
`re.finditer` and divides each captured number by 100.  The scanner below
replicates `finditer`'s leftmost, non-overlapping behaviour: at each position
try to match the pattern; on success emit the value and continue after the
match; on failure advance one character.  (Backtracking inside the regex never
changes the outcome: after shrinking `\d+` the next character is a digit, and
after dropping the optional fraction the next character is `.`, so neither
retry can reach `%`.) -/

/-- Maximal run of ASCII digits at the head of the list, with the rest. -/
def takeDigits : List Char → List Char × List Char
  | [] => ([], [])
  | c :: rest =>
    if c.isDigit then
      let p := takeDigits rest
      (c :: p.1, p.2)
    else ([], c :: rest)

/-- Value of a single ASCII digit character (0 for anything else; only ever
applied to characters accepted by `Char.isDigit`). -/
def digitVal (c : Char) : Nat :=
  if c = '0' then 0 else if c = '1' then 1 else if c = '2' then 2
  else if c = '3' then 3 else if c = '4' then 4 else if c = '5' then 5
  else if c = '6' then 6 else if c = '7' then 7 else if c = '8' then 8
  else if c = '9' then 9 else 0

/-- Numeric value of a digit run. -/
def digitsToNat (ds : List Char) : Nat :=
  ds.foldl (fun n c => n * 10 + digitVal c) 0

/-- Try to match `([-+]?\d+(?:\.\d+)?)\s*%` at the head of the list, returning
the value (already divided by 100) and the remainder after the match. -/
def matchPercentAt (l : List Char) : Option (ℚ × List Char) :=
  let sl : ℚ × List Char :=
    match l with
    | '-' :: rest => (-1, rest)
    | '+' :: rest => (1, rest)
    | _ => (1, l)
  let dp := takeDigits sl.2
  if dp.1 = [] then none
  else
    let intPart : ℚ := (digitsToNat dp.1 : ℚ)
    let vp : ℚ × List Char :=
      match dp.2 with
      | '.' :: rest =>
        let fp := takeDigits rest
        if fp.1 = [] then (intPart, dp.2)
        else (intPart + (digitsToNat fp.1 : ℚ) / ((10 : ℚ) ^ fp.1.length), fp.2)
      | _ => (intPart, dp.2)
    match vp.2.dropWhile (fun c => c.isWhitespace) with
    | '%' :: rest => some (sl.1 * vp.1 / 100, rest)
    | _ => none

/-- Fuelled scanner (the fuel is the character count; every step consumes at
least one character, so the fuel never runs out early). -/
def scanPercentsAux : Nat → List Char → List ℚ
  | 0, _ => []
  | _, [] => []
  | fuel + 1, c :: rest =>
    match matchPercentAt (c :: rest) with
    | some (v, after) => v :: scanPercentsAux fuel after
    | none => scanPercentsAux fuel rest

/-- `utils.extract_percent_values`. -/
def extract_percent_values (text : String) : List ℚ :=
  scanPercentsAux text.data.length text.data

/-- `utils.rarity_score` (the source upper-cases the rarity first). -/
def rarity_score (rarity : String) : ℚ :=
  let r := strUpper rarity
  if r = "SS" then 1.2
  else if r = "S" then 1.0
  else if r = "A" then 0.85
  else 1.0

/-! ## Data model (`models.py`), restricted to the fields the recommender
reads.  (`element_tag`, `jewel_type`, the scope strings, `def_bonus`,
`target`, `hit`, `sp`, `basic_flag`, `per_hit_multipliers`, and the
enemy fields `hp`/`dr`/`stat`/`category`/`detail_url` are never read by
`recommender.py` and are omitted.) -/

structure Style where
  style_name : String
  «alias» : String
  character : String
  style_raw : String
  rarity : String
  attack_bonus_no_lb : ℚ
  attack_bonus_lb3 : ℚ
  crit_damage_no_lb : ℚ
  crit_damage_lb3 : ℚ
  crit_rate_no_lb : ℚ
  crit_rate_lb3 : ℚ
  destruction_no_lb : ℚ
  destruction_lb3 : ℚ
  passive_no_lb : String
  passive_lb3 : String
deriving DecidableEq

/-- `Style.attack_bonus` property: effective value over the two tiers. -/
def Style.attack_bonus (s : Style) : ℚ := max s.attack_bonus_no_lb s.attack_bonus_lb3

/-- `Style.crit_damage_bonus` property. -/
def Style.crit_damage_bonus (s : Style) : ℚ := max s.crit_damage_no_lb s.crit_damage_lb3

/-- `Style.crit_rate_bonus` property. -/
def Style.crit_rate_bonus (s : Style) : ℚ := max s.crit_rate_no_lb s.crit_rate_lb3

/-- `Style.destruction_bonus` property. -/
def Style.destruction_bonus (s : Style) : ℚ := max s.destruction_no_lb s.destruction_lb3

structure Skill where
  skill_name : String
  weapon : String
  element : String
  owner_style_hint : String
  owner_character : String
  multiplier : ℚ
  notes : String
deriving DecidableEq

structure Enemy where
  name : String
  dp : ℚ
  weapon_mult : List (String × ℚ)
  element_mult : List (String × ℚ)
deriving DecidableEq

structure StyleScore where
  style : Style
  role : String
  total_score : ℚ
  attack_score : ℚ
  support_score : ℚ
  debuff_score : ℚ
  breaker_skill : Option Skill
  finisher_skill : Option Skill
  support_skill : Option Skill
  debuff_skill : Option Skill
  weakness_factor : ℚ
deriving DecidableEq

structure TeamPlan where
  team : List StyleScore
  main_attacker : Option StyleScore
  enemy : Option Enemy
  estimated_damage : ℚ
  relative_score : ℚ
  turn_plan : List String
  unmatched_owned : List String
  unmatched_wanted : List String
deriving DecidableEq

/-! ## Knowledge maps (`skill_name → value` association lists with Python
`dict.get` defaults; the advisor holds them already built, as after
`BattleAdvisor.__init__`). -/

abbrev BuffMap := List (String × ℚ)

/-- Python `d.get(k, 0.0)`. -/
def mapGet (m : BuffMap) (k : String) : ℚ :=
  match m.find? (fun p => decide (p.1 = k)) with
  | some p => p.2
  | none => 0

/-- Python `k in d`. -/
def mapHas (m : BuffMap) (k : String) : Bool :=
  (m.find? (fun p => decide (p.1 = k))).isSome

/-- Python `d.get(k, "")` on the debuff-trait map. -/
def traitGet (m : List (String × String)) (k : String) : String :=
  match m.find? (fun p => decide (p.1 = k)) with
  | some p => p.2
  | none => ""

/-- Python `k in d` on the debuff-trait map. -/
def traitHas (m : List (String × String)) (k : String) : Bool :=
  (m.find? (fun p => decide (p.1 = k))).isSome

/-- Overwrite-or-append a key in a buff map (Python `d[k] = v`).  Used to
state claims about increasing a single buff-map value. -/
def mapSet : BuffMap → String → ℚ → BuffMap
  | [], k, v => [(k, v)]
  | p :: rest, k, v => if p.1 = k then (k, v) :: rest else p :: mapSet rest k v

/-! ## The advisor (`BattleAdvisor` after `__init__`). -/

structure BattleAdvisor where
  styles : List Style
  skills : List Skill
  enemies : List Enemy
  skill_attack_buff_map : BuffMap
  element_attack_buff_map : BuffMap
  charge_buff_map : BuffMap
  crit_damage_buff_map : BuffMap
  crit_rate_buff_map : BuffMap
  field_buff_map : BuffMap
  mind_eye_map : BuffMap
  penetration_map : BuffMap
  debuff_trait_map : List (String × String)
  fuzzy : String → List Style → Option Style

/-- Keyword table `SUPPORT_KEYWORDS`. -/
def SUPPORT_KEYWORDS : List String :=
  ["バフ", "フィールド", "チャージ", "士気", "クリティカル", "スキル攻撃力", "トークン", "OD", "SP"]

/-- Keyword table `DEBUFF_KEYWORDS`. -/
def DEBUFF_KEYWORDS : List String :=
  ["防御ダウン", "脆弱", "耐性", "デバフ", "被ダメ", "弱体", "封印"]

/-- Keyword table `ATTACK_KEYWORDS`. -/
def ATTACK_KEYWORDS : List String :=
  ["対HPダメージ", "対DPダメージ", "連撃", "破壊率", "貫通"]

/-! ## Stable sorting (Python's `sorted`)

`lt x y = true` means "x must come strictly before y".  `insertSorted` places
the new element before the first list element it must strictly precede, so
elements comparing equal keep their processing order: this is exactly the
unique stable sort for the total preorder induced by a sort key. -/

/-- Insert one element into an already sorted list, stably. -/
def insertSorted (lt : α → α → Bool) (x : α) : List α → List α
  | [] => [x]
  | y :: ys => if lt x y then x :: y :: ys else y :: insertSorted lt x ys

/-- Stable sort by repeated insertion (elements processed left to right). -/
def stableSort (lt : α → α → Bool) (l : List α) : List α :=
  l.foldl (fun acc x => insertSorted lt x acc) []

/-- Python `sorted(l, key=key, reverse=True)` for a rational key. -/
def sortDescBy (key : α → ℚ) (l : List α) : List α :=
  stableSort (fun x y => decide (key y < key x)) l

/-! ## `BattleAdvisor` lookups -/

/-- First-occurrence ordered key list of `self.style_by_name`
(`list(self.style_by_name.keys())`). -/
def styleNames (a : BattleAdvisor) : List String :=
  dedupStr (a.styles.map (fun s => s.style_name))

/-- `self.style_by_name[n]`: dict construction keeps the LAST style with a
given name, so indexing returns the last matching style (`none` iff the name
is absent, in which case Python would raise — every use site is guarded). -/
def lookupStyleLast (a : BattleAdvisor) (n : String) : Option Style :=
  (a.styles.filter (fun s => decide (s.style_name = n))).getLast?

/-- `BattleAdvisor.find_enemy` ( `""` plays Python's `None`). -/
def find_enemy (a : BattleAdvisor) (enemy_name : String) : Option Enemy :=
  if enemy_name = "" then none
  else
    match a.enemies.find? (fun e => decide (e.name = enemy_name)) with
    | some e => some e
    | none => a.enemies.find? (fun e => strContains e.name enemy_name)

/-! ## `BattleAdvisor.resolve_style_queries` -/

/-- Strict lexicographic comparison of the substring-tier sort key
`(0 if name startswith q else 1, -rarity_score, len(name))`. -/
def subTierLt (q : String) (x y : Style) : Bool :=
  let ax : Nat := if strStarts x.style_name q then 0 else 1
  let ay : Nat := if strStarts y.style_name q then 0 else 1
  decide (ax < ay ∨ (ax = ay ∧
    (-(rarity_score x.rarity) < -(rarity_score y.rarity) ∨
      (-(rarity_score x.rarity) = -(rarity_score y.rarity) ∧
        x.style_name.length < y.style_name.length))))

/-- Resolution of one trimmed, non-empty query through the four tiers
(exact, case-insensitive, substring, fuzzy); `none` means unresolved. -/
def resolveOne (a : BattleAdvisor) (q : String) : Option Style :=
  match lookupStyleLast a q with
  | some st => some st
  | none =>
    match (styleNames a).reverse.find? (fun n => decide (strLower n = strLower q)) with
    | some n => lookupStyleLast a n
    | none =>
      let candidates := a.styles.filter (fun s =>
        strContains s.style_name q || strContains s.character q ||
        strContains s.«alias» q || strContains s.style_raw q)
      match candidates with
      | [] => a.fuzzy q a.styles
      | _ :: _ => (stableSort (subTierLt q) candidates).head?

/-- One iteration of the query loop: trim, skip empties, try the tiers,
collect resolved styles and unresolved queries in order. -/
def resolveStep (a : BattleAdvisor) (acc : List Style × List String) (query : String) :
    List Style × List String :=
  let q := strTrim query
  if q = "" then acc
  else
    match resolveOne a q with
    | some st => (acc.1 ++ [st], acc.2)
    | none => (acc.1, acc.2 ++ [q])

/-- De-duplicate resolved styles by `style_name`, preserving first-occurrence
order (auxiliary, carrying the `seen` set). -/
def dedupByNameAux (seen : List String) : List Style → List Style
  | [] => []
  | st :: rest =>
    if st.style_name ∈ seen then dedupByNameAux seen rest
    else st :: dedupByNameAux (st.style_name :: seen) rest

/-- The final de-duplication pass of `resolve_style_queries`. -/
def dedupByName (l : List Style) : List Style := dedupByNameAux [] l

/-- `BattleAdvisor.resolve_style_queries`. -/
def resolve_style_queries (a : BattleAdvisor) (queries : List String) :
    List Style × List String :=
  let p := queries.foldl (resolveStep a) ([], [])
  (dedupByName p.1, p.2)

/-! ## Skill-level scoring -/

/-- `BattleAdvisor._skills_for_style`. -/
def skills_for_style (a : BattleAdvisor) (style : Style) : List Skill :=
  let style_skills := a.skills.filter (fun sk =>
    decide (sk.owner_style_hint ≠ "") && decide (sk.owner_style_hint = style.style_name))
  if style_skills ≠ [] then style_skills
  else
    let charSkills := a.skills.filter (fun sk => decide (sk.owner_character = style.character))
    let candidates := charSkills.filter (fun sk =>
      decide (style.«alias» ≠ "") && strContains sk.owner_style_hint style.«alias»)
    if candidates ≠ [] then candidates else charSkills

/-- `BattleAdvisor._weakness_factor` (`""` plays `None` for the preferences). -/
def weakness_factor (skill : Skill) (enemy : Option Enemy)
    (preferred_weapon preferred_element : String) : ℚ :=
  let factor : ℚ := 1
  let factor :=
    match enemy with
    | none => factor
    | some e =>
      let factor := if mapHas e.weapon_mult skill.weapon then
        factor * max 0.05 (mapGet e.weapon_mult skill.weapon) else factor
      if mapHas e.element_mult skill.element then
        factor * max 0.05 (mapGet e.element_mult skill.element) else factor
  let factor := if preferred_weapon ≠ "" ∧ skill.weapon = preferred_weapon then
    factor * 1.15 else factor
  if preferred_element ≠ "" ∧ skill.element = preferred_element then
    factor * 1.2 else factor

/-- `BattleAdvisor._attack_skill_score`; returns
`(overall, hp_score, dp_score, weakness)`. -/
def attack_skill_score (a : BattleAdvisor) (skill : Skill) (enemy : Option Enemy)
    (preferred_weapon preferred_element : String) : ℚ × ℚ × ℚ × ℚ :=
  let weakness := weakness_factor skill enemy preferred_weapon preferred_element
  let notes := skill.notes
  let pct_values := extract_percent_values notes
  let pct_max : ℚ := match pct_values with
    | [] => 0
    | v :: rest => rest.foldl max v
  let hp_bonus : ℚ :=
    if strContains notes "対HPダメージ" ∧ pct_values ≠ [] then pct_max else 0
  let dp_bonus : ℚ :=
    if strContains notes "対DPダメージ" ∧ pct_values ≠ [] then pct_max else 0
  let attack_keyword_bonus : ℚ :=
    ((ATTACK_KEYWORDS.filter (fun k => strContains notes k)).length : ℚ) * 0.07
  let base := max 0.1 skill.multiplier
  let penetration_bonus := mapGet a.penetration_map skill.skill_name * 0.65
  let mind_eye_bonus := mapGet a.mind_eye_map skill.skill_name * 0.4
  let hp_score := base * (1 + hp_bonus + attack_keyword_bonus + penetration_bonus + mind_eye_bonus) * weakness
  let dp_score := base * (1 + dp_bonus + attack_keyword_bonus + penetration_bonus + mind_eye_bonus) * weakness
  (max hp_score dp_score, hp_score, dp_score, weakness)

/-- `BattleAdvisor._support_skill_score`. -/
def support_skill_score (a : BattleAdvisor) (skill : Skill) : ℚ :=
  let notes := skill.notes
  let score : ℚ := ((SUPPORT_KEYWORDS.filter (fun k => strContains notes k)).length : ℚ) * 1.0
  let score := if strContains notes "回復" then score + 0.4 else score
  score
    + mapGet a.skill_attack_buff_map skill.skill_name * 10.0
    + mapGet a.element_attack_buff_map skill.skill_name * 10.0
    + mapGet a.charge_buff_map skill.skill_name * 9.0
    + mapGet a.crit_damage_buff_map skill.skill_name * 7.0
    + mapGet a.crit_rate_buff_map skill.skill_name * 7.0
    + mapGet a.field_buff_map skill.skill_name * 8.0

/-- `BattleAdvisor._debuff_skill_score`. -/
def debuff_skill_score (a : BattleAdvisor) (skill : Skill) : ℚ :=
  let notes := skill.notes
  let score : ℚ := ((DEBUFF_KEYWORDS.filter (fun k => strContains notes k)).length : ℚ) * 1.0
  let debuff_hint := traitGet a.debuff_trait_map skill.skill_name
  let score :=
    if debuff_hint ≠ "" then
      let score := score + 2.0
      let score := if strContains debuff_hint "脆弱" then score + 0.7 else score
      if strContains debuff_hint "DP" ∨ strContains debuff_hint "耐" then score + 0.5 else score
    else score
  let score := if strContains notes "防御ダウン" then score + 1.0 else score
  if strContains notes "脆弱" then score + 1.0 else score

/-! ## `BattleAdvisor.score_style` -/

/-- Accumulator of the best-skill scan inside `score_style`. -/
structure BestAcc where
  best_attack_any : Option Skill
  best_attack_any_score : ℚ
  best_hp_skill : Option Skill
  best_hp_score : ℚ
  best_dp_skill : Option Skill
  best_dp_score : ℚ
  best_weakness : ℚ
  best_support : Option Skill
  best_support_score : ℚ
  best_debuff : Option Skill
  best_debuff_score : ℚ
deriving DecidableEq

/-- Initial accumulator values of `score_style`'s scan. -/
def initBest : BestAcc :=
  { best_attack_any := none, best_attack_any_score := 0
    best_hp_skill := none, best_hp_score := 0
    best_dp_skill := none, best_dp_score := 0
    best_weakness := 1
    best_support := none, best_support_score := 0
    best_debuff := none, best_debuff_score := 0 }

/-- One iteration of the `for sk in skills` loop of `score_style`
(every comparison is a strict `>`, so ties keep the first-seen skill). -/
def stepBest (a : BattleAdvisor) (enemy : Option Enemy)
    (preferred_weapon preferred_element : String) (acc : BestAcc) (sk : Skill) : BestAcc :=
  let r := attack_skill_score a sk enemy preferred_weapon preferred_element
  let atk_any := r.1
  let atk_hp := r.2.1
  let atk_dp := r.2.2.1
  let weakness := r.2.2.2
  let acc := if acc.best_attack_any_score < atk_any then
    { acc with best_attack_any := some sk, best_attack_any_score := atk_any,
               best_weakness := weakness }
    else acc
  let acc := if acc.best_hp_score < atk_hp then
    { acc with best_hp_skill := some sk, best_hp_score := atk_hp } else acc
  let acc := if acc.best_dp_score < atk_dp then
    { acc with best_dp_skill := some sk, best_dp_score := atk_dp } else acc
  let sup_score := support_skill_score a sk
  let acc := if acc.best_support_score < sup_score then
    { acc with best_support := some sk, best_support_score := sup_score } else acc
  let deb_score := debuff_skill_score a sk
  if acc.best_debuff_score < deb_score then
    { acc with best_debuff := some sk, best_debuff_score := deb_score } else acc

/-- The completed best-skill scan of `score_style`. -/
def bestsFor (a : BattleAdvisor) (style : Style) (enemy : Option Enemy)
    (preferred_weapon preferred_element : String) : BestAcc :=
  (skills_for_style a style).foldl (stepBest a enemy preferred_weapon preferred_element) initBest

/-- `BattleAdvisor.score_style`. -/
def score_style (a : BattleAdvisor) (style : Style) (enemy : Option Enemy)
    (preferred_weapon preferred_element : String) : StyleScore :=
  let b := bestsFor a style enemy preferred_weapon preferred_element
  let rarity := rarity_score style.rarity
  let stat_boost := style.attack_bonus + style.crit_damage_bonus * 0.35
    + style.crit_rate_bonus * 0.25 + style.destruction_bonus * 0.2
  let use_hp_phase : Bool := match enemy with
    | some e => decide (0 < e.dp)
    | none => false
  let finisher_skill := if use_hp_phase then b.best_hp_skill else b.best_attack_any
  let breaker_skill := if use_hp_phase then b.best_dp_skill else b.best_attack_any
  let attack_core := if use_hp_phase then b.best_hp_score else b.best_attack_any_score
  let attack_core := if attack_core ≤ 0 then b.best_attack_any_score else attack_core
  let attack_score := attack_core * rarity * (1 + stat_boost)
  let support_score := (b.best_support_score + style.attack_bonus * 3.0) * rarity
  let debuff_score := (b.best_debuff_score + style.destruction_bonus * 2.0) * rarity
  let passive_text := style.passive_no_lb ++ " " ++ style.passive_lb3
  let support_score := if SUPPORT_KEYWORDS.any (fun k => strContains passive_text k) then
    support_score + 0.8 else support_score
  let debuff_score := if DEBUFF_KEYWORDS.any (fun k => strContains passive_text k) then
    debuff_score + 0.8 else debuff_score
  let role : String :=
    if (match b.best_support with
        | some s => mapHas a.skill_attack_buff_map s.skill_name
            || mapHas a.element_attack_buff_map s.skill_name
            || mapHas a.charge_buff_map s.skill_name
            || mapHas a.field_buff_map s.skill_name
            || mapHas a.crit_damage_buff_map s.skill_name
            || mapHas a.crit_rate_buff_map s.skill_name
        | none => false) then "buffer"
    else if (match b.best_debuff with
        | some d => traitHas a.debuff_trait_map d.skill_name
            || strContains d.notes "防御ダウン" || strContains d.notes "脆弱"
        | none => false) then "debuffer"
    else
      let role_cutoff := max 1.6 (attack_score * 0.12)
      if role_cutoff ≤ debuff_score ∧ support_score ≤ debuff_score then "debuffer"
      else if role_cutoff ≤ support_score then "buffer"
      else "attacker"
  let total := attack_score * 1.0 + support_score * 0.7 + debuff_score * 0.7
  { style := style, role := role, total_score := total, attack_score := attack_score,
    support_score := support_score, debuff_score := debuff_score,
    breaker_skill := breaker_skill, finisher_skill := finisher_skill,
    support_skill := b.best_support, debuff_skill := b.best_debuff,
    weakness_factor := b.best_weakness }

/-! ## Team selection (`recommend`, steps 1-5) -/

/-- The mutable selection state of `recommend` (`selected` and `used_chars`;
the Python `set` is insertion-ordered here, which only strengthens the model). -/
structure SelState where
  selected : List StyleScore
  used_chars : List String
deriving DecidableEq

/-- `recommend.add_style`: refuse a candidate whose character is taken. -/
def add_style (st : SelState) (sc : StyleScore) : Bool × SelState :=
  if sc.style.character ∈ st.used_chars then (false, st)
  else (true, ⟨st.selected ++ [sc], st.used_chars ++ [sc.style.character]⟩)

/-- `score_map.get(name)`: the dict keeps the last score per style name. -/
def scoreFor (scores : List StyleScore) (name : String) : Option StyleScore :=
  (scores.filter (fun sc => decide (sc.style.style_name = name))).getLast?

/-- Step 1: force-add every matched wanted style, in query order. -/
def forceWanted (scores : List StyleScore) : List Style → SelState → SelState
  | [], st => st
  | w :: rest, st =>
    match scoreFor scores w.style_name with
    | some sc => forceWanted scores rest (add_style st sc).2
    | none => forceWanted scores rest st

/-- Step 2: scan candidates by descending attack score, add the first addable
one and record it as main attacker. -/
def pickMain : List StyleScore → SelState → Option StyleScore × SelState
  | [], st => (none, st)
  | sc :: rest, st =>
    let r := add_style st sc
    if r.1 then (some sc, r.2) else pickMain rest st

/-- Python `max(selected, key=attack_score)` (first maximum wins);
`none` iff the list is empty. -/
def maxByAttack : List StyleScore → Option StyleScore
  | [] => none
  | sc :: rest => some (rest.foldl (fun best x =>
      if best.attack_score < x.attack_score then x else best) sc)

/-- Step 3: the debuffer pass (stop at the score threshold, stop after a
successful add once a debuffer-role member exists). -/
def debuffPass (team_size : Nat) : List StyleScore → SelState → SelState
  | [], st => st
  | sc :: rest, st =>
    if team_size ≤ st.selected.length then st
    else if sc.debuff_score ≤ 0.4 then st
    else
      let r := add_style st sc
      if r.1 then
        if 1 ≤ (r.2.selected.filter (fun x => decide (x.role = "debuffer"))).length then r.2
        else debuffPass team_size rest r.2
      else debuffPass team_size rest st

/-- Step 4: the buffer pass, symmetric to step 3. -/
def bufferPass (team_size : Nat) : List StyleScore → SelState → SelState
  | [], st => st
  | sc :: rest, st =>
    if team_size ≤ st.selected.length then st
    else if sc.support_score ≤ 0.4 then st
    else
      let r := add_style st sc
      if r.1 then
        if 1 ≤ (r.2.selected.filter (fun x => decide (x.role = "buffer"))).length then r.2
        else bufferPass team_size rest r.2
      else bufferPass team_size rest st

/-- Step 4.5: the secondary support/debuff layer pass. -/
def layerPass (team_size : Nat) : List StyleScore → SelState → SelState
  | [], st => st
  | sc :: rest, st =>
    if team_size ≤ st.selected.length then st
    else
      let r := add_style st sc
      if r.1 then
        if 2 ≤ (r.2.selected.filter (fun x => decide (2 ≤ x.support_score))).length ∧
           2 ≤ (r.2.selected.filter (fun x => decide (2 ≤ x.debuff_score))).length then r.2
        else layerPass team_size rest r.2
      else layerPass team_size rest st

/-- Step 5: fill by descending total score until the team is full. -/
def fillPass (team_size : Nat) : List StyleScore → SelState → SelState
  | [], st => st
  | sc :: rest, st =>
    if team_size ≤ st.selected.length then st
    else fillPass team_size rest (add_style st sc).2

/-- Python's `x if x is not None else y` shape of the two main-attacker
fallbacks (`if main_attacker is None and selected: main_attacker = max(...)`,
where `maxByAttack` already returns `none` on an empty selection). -/
def firstSome (x y : Option StyleScore) : Option StyleScore :=
  match x with
  | some m => some m
  | none => y

/-- The selection state after steps 1-2 (wanted force-adds, then the
main-attacker scan). -/
def selectState2 (scores : List StyleScore) (matched_wanted : List Style) : SelState :=
  (pickMain (sortDescBy (fun x => x.attack_score) scores)
    (forceWanted scores matched_wanted ⟨[], []⟩)).2

/-- The untruncated selection after all five passes. -/
def selectState6 (scores : List StyleScore) (matched_wanted : List Style)
    (team_size : Nat) : SelState :=
  fillPass team_size (sortDescBy (fun x => x.total_score) scores)
    (layerPass team_size (sortDescBy (fun x => max x.support_score x.debuff_score) scores)
      (bufferPass team_size (sortDescBy (fun x => x.support_score) scores)
        (debuffPass team_size (sortDescBy (fun x => x.debuff_score) scores)
          (selectState2 scores matched_wanted))))

/-- Steps 1-5 of `recommend` plus the two main-attacker fallbacks; returns the
untruncated selection and the main attacker. -/
def selectTeam (scores : List StyleScore) (matched_wanted : List Style)
    (team_size : Nat) : SelState × Option StyleScore :=
  (selectState6 scores matched_wanted team_size,
   firstSome
     (firstSome
       (pickMain (sortDescBy (fun x => x.attack_score) scores)
         (forceWanted scores matched_wanted ⟨[], []⟩)).1
       (maxByAttack (selectState2 scores matched_wanted).selected))
     (maxByAttack (selectState6 scores matched_wanted team_size).selected))

/-! ## Damage estimation (`recommend`, "Estimate damage" block) -/

/-- The member loop accumulating `total_support_layers` and
`total_debuff_layers`, statement for statement. -/
def layersLoop (a : BattleAdvisor) : ℚ × ℚ → List StyleScore → ℚ × ℚ
  | acc, [] => acc
  | acc, member :: rest =>
    let sup := acc.1
    let deb := acc.2
    let sup :=
      match member.support_skill with
      | some s =>
        sup + mapGet a.skill_attack_buff_map s.skill_name * 0.7
            + mapGet a.element_attack_buff_map s.skill_name * 0.65
            + mapGet a.charge_buff_map s.skill_name * 0.7
            + mapGet a.field_buff_map s.skill_name * 0.55
            + mapGet a.crit_damage_buff_map s.skill_name * 0.45
            + mapGet a.crit_rate_buff_map s.skill_name * 0.45
      | none => sup
    let sup := if member.role = "buffer" ∨ 2 ≤ member.support_score then sup + 0.05 else sup
    let deb :=
      match member.debuff_skill with
      | some d => if traitHas a.debuff_trait_map d.skill_name then deb + 0.12 else deb
      | none => deb
    let deb := if member.role = "debuffer" ∨ 2 ≤ member.debuff_score then deb + 0.08 else deb
    layersLoop a (sup, deb) rest

/-- The damage-estimation block of `recommend`; returns
`(estimated_damage, relative_score)`. -/
def estimateDamage (a : BattleAdvisor) (selected : List StyleScore)
    (main : Option StyleScore) (enemy : Option Enemy) : ℚ × ℚ :=
  match main with
  | none => (0, 0)
  | some main =>
    let phase_has_dp : Bool := match enemy with
      | some e => decide (0 < e.dp)
      | none => false
    let breaker := if phase_has_dp then main.breaker_skill else none
    let finisher := main.finisher_skill
    let skill_mult := max 0.5 (match finisher with | some f => f.multiplier | none => 1)
    let weakness := max 0.1 main.weakness_factor
    let total_atk_bonus := (selected.map (fun x => x.style.attack_bonus)).sum
    let layers := layersLoop a (0, 0) selected
    let total_support_layers := min 2.2 layers.1
    let total_debuff_layers := min 1.8 layers.2
    let crit_factor := 1.5 + min 1.2
      (main.style.crit_damage_bonus + (selected.map (fun x => x.style.crit_damage_bonus)).sum * 0.25)
    let base : ℚ := 1000000
    let break_phase_factor :=
      if phase_has_dp then
        let breaker_mult := max 0.5 (match breaker with | some b => b.multiplier | none => skill_mult)
        1 + min 0.85 (breaker_mult * 0.045 + total_debuff_layers * 0.2)
      else 1
    let estimated_damage := base * skill_mult * (1 + total_atk_bonus + total_support_layers)
      * (1 + total_debuff_layers) * weakness * crit_factor * break_phase_factor
    (estimated_damage, estimated_damage / base)

/-! ## `BattleAdvisor._build_turn_plan` -/

/-- The turn-1 accumulation: up to two distinct debuffers then up to two
distinct buffers, skipping styles already listed. -/
def turnOneStep (getSkill : StyleScore → Option Skill)
    (acc : List String × List String) (x : StyleScore) : List String × List String :=
  if x.style.style_name ∈ acc.2 then acc
  else
    (acc.1 ++ [x.style.style_name ++ " -> " ++ ((getSkill x).map (fun k => k.skill_name)).getD ""],
     acc.2 ++ [x.style.style_name])

/-- `BattleAdvisor._build_turn_plan` (receives the untruncated selection). -/
def build_turn_plan (team : List StyleScore) (main_attacker : Option StyleScore)
    (enemy : Option Enemy) : List String :=
  let debuffers := team.filter (fun x => x.debuff_skill.isSome && decide (some x ≠ main_attacker))
  let buffers := team.filter (fun x => x.support_skill.isSome && decide (some x ≠ main_attacker))
  let phase_has_dp : Bool := match enemy with
    | some e => decide (0 < e.dp)
    | none => false
  let p1 := (debuffers.take 2).foldl (turnOneStep (fun x => x.debuff_skill)) ([], [])
  let p2 := (buffers.take 2).foldl (turnOneStep (fun x => x.support_skill)) p1
  let t1_actions := if p2.1 = [] then ["バフ/デバフ役で準備行動"] else p2.1
  let t2_enemy : List String :=
    match enemy with
    | some e => ["敵 " ++ e.name ++ " の弱点倍率に合わせて属性/武器を調整"]
    | none => []
  let t2_actions := t2_enemy ++
    (match main_attacker with
     | some m =>
       if phase_has_dp ∧ m.breaker_skill.isSome then
         [m.style.style_name ++ " -> " ++ ((m.breaker_skill.map (fun k => k.skill_name)).getD "")
           ++ " でDPブレイクを狙う"]
       else ["SP回収とバフ更新を優先"]
     | none => ["SP回収とバフ更新を優先"])
  let t3_actions : List String :=
    match main_attacker with
    | some m =>
      match m.finisher_skill with
      | some f =>
        if phase_has_dp then
          [m.style.style_name ++ " -> " ++ f.skill_name ++ " でHPフェーズをフィニッシュ"]
        else
          [m.style.style_name ++ " -> " ++ f.skill_name ++ " でフィニッシュ"]
      | none => [m.style.style_name ++ " で最大倍率スキルを発動"]
    | none => ["最大火力役でフィニッシュ"]
  ["Turn1: " ++ joinSep " / " t1_actions,
   "Turn2: " ++ joinSep " / " t2_actions,
   "Turn3: " ++ joinSep " / " t3_actions]

/-! ## `BattleAdvisor.recommend` -/

/-- Insert-or-overwrite into the candidate-pool dict (`pool_map[name] = st`):
an existing key keeps its position, a new key is appended. -/
def poolInsert (m : List (String × Style)) (st : Style) : List (String × Style) :=
  if st.style_name ∈ m.map Prod.fst then
    m.map (fun p => if p.1 = st.style_name then (st.style_name, st) else p)
  else m ++ [(st.style_name, st)]

/-- The candidate pool: matched owned styles if any (else all styles), with
matched wanted styles merged in by name. -/
def poolOf (a : BattleAdvisor) (matched_owned matched_wanted : List Style) : List Style :=
  let base := if matched_owned = [] then a.styles else matched_owned
  let baseMap := base.foldl poolInsert []
  (matched_wanted.foldl poolInsert baseMap).map Prod.snd

/-- The wanted-style score boost (`sc.total_score += 100.0`). -/
def boostWanted (scores : List StyleScore) (wanted_names : List String) : List StyleScore :=
  scores.map (fun sc =>
    if sc.style.style_name ∈ wanted_names then
      { sc with total_score := sc.total_score + 100.0 }
    else sc)

/-- All of `recommend` up to and including team selection: the boosted score
list, the matched wanted styles, and the selection result. -/
def recommendSel (a : BattleAdvisor) (owned_queries wanted_queries : List String)
    (enemy_name preferred_weapon preferred_element : String) (team_size : Nat) :
    SelState × Option StyleScore :=
  let matched_owned := (resolve_style_queries a owned_queries).1
  let matched_wanted := (resolve_style_queries a wanted_queries).1
  let pool := poolOf a matched_owned matched_wanted
  let enemy := find_enemy a enemy_name
  let scores := boostWanted
    (pool.map (fun st => score_style a st enemy preferred_weapon preferred_element))
    (matched_wanted.map (fun s => s.style_name))
  selectTeam scores matched_wanted team_size

/-- Reorder the final list so the main attacker comes first. -/
def reorderMain (selected : List StyleScore) (main : Option StyleScore) : List StyleScore :=
  match main with
  | some m => m :: selected.filter (fun x => decide (x.style.style_name ≠ m.style.style_name))
  | none => selected

/-- `BattleAdvisor.recommend`.  `team_size` is the positive team size of the
call contract (callers pass 1-6, default 6). -/
def recommend (a : BattleAdvisor) (owned_queries wanted_queries : List String)
    (enemy_name preferred_weapon preferred_element : String) (team_size : Nat) : TeamPlan :=
  let unmatched_owned := (resolve_style_queries a owned_queries).2
  let unmatched_wanted := (resolve_style_queries a wanted_queries).2
  let enemy := find_enemy a enemy_name
  let p := recommendSel a owned_queries wanted_queries enemy_name
    preferred_weapon preferred_element team_size
  let selected := p.1.selected
  let main_attacker := p.2
  let dmg := estimateDamage a selected main_attacker enemy
  let turn_plan := build_turn_plan selected main_attacker enemy
  { team := (reorderMain selected main_attacker).take team_size,
    main_attacker := main_attacker,
    enemy := enemy,
    estimated_damage := dmg.1,
    relative_score := dmg.2,
    turn_plan := turn_plan,
    unmatched_owned := unmatched_owned,
    unmatched_wanted := unmatched_wanted }

/-! ## Spec-side definitions (for refinement-style claims)

These follow the WORDING of the specification and are compared against the
source-translated definitions above. -/

/-- Modelled from the spec (section 4.6): one member's contribution to
`total_support_layers` — the six weighted buff-map lookups by the member's
support-skill name, plus 0.05 for a buffer-role or `support_score ≥ 2.0`
member. -/
def specSupportContribution (a : BattleAdvisor) (m : StyleScore) : ℚ :=
  (match m.support_skill with
   | some s =>
     0.7 * mapGet a.skill_attack_buff_map s.skill_name
       + 0.65 * mapGet a.element_attack_buff_map s.skill_name
       + 0.7 * mapGet a.charge_buff_map s.skill_name
       + 0.55 * mapGet a.field_buff_map s.skill_name
       + 0.45 * mapGet a.crit_damage_buff_map s.skill_name
       + 0.45 * mapGet a.crit_rate_buff_map s.skill_name
   | none => 0)
  + (if m.role = "buffer" ∨ 2 ≤ m.support_score then 0.05 else 0)

/-- Modelled from the spec (section 4.6): the clamped sum of the per-member
support contributions. -/
def specTotalSupportLayers (a : BattleAdvisor) (selected : List StyleScore) : ℚ :=
  min 2.2 ((selected.map (specSupportContribution a)).sum)

/-- The six buff maps feeding `total_support_layers`, indexed in the order of
the spec's enumeration (skill-attack, element-attack, charge, field,
crit-damage, crit-rate). -/
def supportMapOf (a : BattleAdvisor) : Nat → BuffMap
  | 0 => a.skill_attack_buff_map
  | 1 => a.element_attack_buff_map
  | 2 => a.charge_buff_map
  | 3 => a.field_buff_map
  | 4 => a.crit_damage_buff_map
  | 5 => a.crit_rate_buff_map
  | _ => []

/-- The advisor with the `i`-th support-feeding buff map's value at key `k`
set to `v` (all other data unchanged): "increasing a single buff-map value". -/
def bumpSupportMap (a : BattleAdvisor) (i : Nat) (k : String) (v : ℚ) : BattleAdvisor :=
  match i with
  | 0 => { a with skill_attack_buff_map := mapSet a.skill_attack_buff_map k v }
  | 1 => { a with element_attack_buff_map := mapSet a.element_attack_buff_map k v }
  | 2 => { a with charge_buff_map := mapSet a.charge_buff_map k v }
  | 3 => { a with field_buff_map := mapSet a.field_buff_map k v }
  | 4 => { a with crit_damage_buff_map := mapSet a.crit_damage_buff_map k v }
  | 5 => { a with crit_rate_buff_map := mapSet a.crit_rate_buff_map k v }
  | _ => a

/-! ## State-passing embedding for the frame claim

`recommend` and its helpers read the advisor but contain no assignment to any
advisor field and no in-place mutation of the ingested `Style`/`Skill`/`Enemy`
records or knowledge maps (the single augmented assignment
`sc.total_score += 100.0` targets `StyleScore` values freshly allocated by
`score_style` during the same call; it is the functional update in
`boostWanted`).  Each stage below therefore returns the advisor state it
received, mirroring the absence of writes in the source. -/

/-- `resolve_style_queries` with the advisor state threaded through. -/
def resolve_style_queriesSt (a : BattleAdvisor) (queries : List String) :
    (List Style × List String) × BattleAdvisor :=
  (resolve_style_queries a queries, a)

/-- `find_enemy` with the advisor state threaded through. -/
def find_enemySt (a : BattleAdvisor) (enemy_name : String) :
    Option Enemy × BattleAdvisor :=
  (find_enemy a enemy_name, a)

/-- `score_style` with the advisor state threaded through. -/
def score_styleSt (a : BattleAdvisor) (style : Style) (enemy : Option Enemy)
    (pw pe : String) : StyleScore × BattleAdvisor :=
  (score_style a style enemy pw pe, a)

/-- Scoring the whole pool, threading the advisor state through every
`score_style` call. -/
def scorePoolSt (pool : List Style) (enemy : Option Enemy) (pw pe : String)
    (a : BattleAdvisor) : List StyleScore × BattleAdvisor :=
  pool.foldl
    (fun acc st =>
      let r := score_styleSt acc.2 st enemy pw pe
      (acc.1 ++ [r.1], r.2))
    ([], a)

/-- `estimateDamage` with the advisor state threaded through. -/
def estimateDamageSt (a : BattleAdvisor) (selected : List StyleScore)
    (main : Option StyleScore) (enemy : Option Enemy) : (ℚ × ℚ) × BattleAdvisor :=
  (estimateDamage a selected main enemy, a)

/-- State-passing embedding of `recommend`: the returned advisor is the
post-call state of `self` and its ingested collections. -/
def recommendSt (a : BattleAdvisor) (owned_queries wanted_queries : List String)
    (enemy_name preferred_weapon preferred_element : String) (team_size : Nat) :
    TeamPlan × BattleAdvisor :=
  let r1 := resolve_style_queriesSt a owned_queries
  let r2 := resolve_style_queriesSt r1.2 wanted_queries
  let pool := poolOf r2.2 r1.1.1 r2.1.1
  let re := find_enemySt r2.2 enemy_name
  let rs := scorePoolSt pool re.1 preferred_weapon preferred_element re.2
  let scores := boostWanted rs.1 (r2.1.1.map (fun s => s.style_name))
  let sel := selectTeam scores r2.1.1 team_size
  let rd := estimateDamageSt rs.2 sel.1.selected sel.2 re.1
  let turn_plan := build_turn_plan sel.1.selected sel.2 re.1
  ({ team := (reorderMain sel.1.selected sel.2).take team_size,
     main_attacker := sel.2,
     enemy := re.1,
     estimated_damage := rd.1.1,
     relative_score := rd.1.2,
     turn_plan := turn_plan,
     unmatched_owned := r1.1.2,
     unmatched_wanted := r2.1.2 }, rd.2)

/-! ## Invariants and intermediate characterizations used by the claims -/

/-- Invariant of the selection state: `used_chars` is exactly the character
list of `selected`, and those characters are pairwise distinct. -/
def SelInv (st : SelState) : Prop :=
  st.used_chars = st.selected.map (fun sc => sc.style.character) ∧
  (st.selected.map (fun sc => sc.style.character)).Nodup

/-- The raw resolved-style sequence of `resolve_style_queries`, before
de-duplication: one entry per trimmed, non-empty, tier-matched query, in query
order. -/
def rawResolved (a : BattleAdvisor) (queries : List String) : List Style :=
  queries.filterMap (fun query =>
    let q := strTrim query
    if q = "" then none else resolveOne a q)

/-- The unresolved-query sequence of `resolve_style_queries`: one entry per
trimmed, non-empty query matched by no tier, in query order. -/
def rawUnresolved (a : BattleAdvisor) (queries : List String) : List String :=
  queries.filterMap (fun query =>
    let q := strTrim query
    if q = "" then none
    else match resolveOne a q with
      | some _ => none
      | none => some q)

/-! ## Concrete fixtures (witnesses and counterexamples) -/

/-- An advisor with no data at all (fuzzy matching finds nothing, like
`difflib` over an empty candidate list). -/
def emptyAdvisor : BattleAdvisor :=
  { styles := [], skills := [], enemies := [],
    skill_attack_buff_map := [], element_attack_buff_map := [], charge_buff_map := [],
    crit_damage_buff_map := [], crit_rate_buff_map := [], field_buff_map := [],
    mind_eye_map := [], penetration_map := [], debuff_trait_map := [],
    fuzzy := fun _ _ => none }

/-- A minimal S-rarity style fixture with the given attack and crit-damage
bonuses (all other numeric bonuses zero, no passives). -/
def mkStyle (n c : String) (ab cdb : ℚ) : Style :=
  { style_name := n, «alias» := "", character := c, style_raw := "", rarity := "S",
    attack_bonus_no_lb := ab, attack_bonus_lb3 := ab,
    crit_damage_no_lb := cdb, crit_damage_lb3 := cdb,
    crit_rate_no_lb := 0, crit_rate_lb3 := 0,
    destruction_no_lb := 0, destruction_lb3 := 0,
    passive_no_lb := "", passive_lb3 := "" }

/-- A minimal skill fixture. -/
def mkSkill (n hint c : String) (mult : ℚ) (notes : String) : Skill :=
  { skill_name := n, weapon := "", element := "", owner_style_hint := hint,
    owner_character := c, multiplier := mult, notes := notes }

/-- C8 counterexample data: one S style with two skills; skill `t` sits in the
charge-buff map with value 0.5, skill `s` sits in the crit-damage-buff map
with the value `v` under study. -/
def c8Advisor (v : ℚ) : BattleAdvisor :=
  { emptyAdvisor with
    styles := [mkStyle "A1" "ch1" 0 0],
    skills := [mkSkill "t" "" "ch1" 0 "", mkSkill "s" "" "ch1" 0 ""],
    charge_buff_map := [("t", 0.5)],
    crit_damage_buff_map := [("s", v)] }

/-- A literal scored-member fixture (for the C8 witness): a buffer whose
support skill `t` is looked up in the bumped maps. -/
def c8Member : StyleScore :=
  { style := mkStyle "A1" "ch1" 0 0, role := "buffer", total_score := 0,
    attack_score := 0, support_score := 0, debuff_score := 0,
    breaker_skill := none, finisher_skill := some (mkSkill "t" "" "ch1" 0 ""),
    support_skill := some (mkSkill "t" "" "ch1" 0 ""), debuff_skill := none,
    weakness_factor := 1 }

/-- C2 data set: exactly one style (attack bonus `ab`, crit-damage bonus
`cdb`), whose only skill has multiplier 2.0 and empty notes, and one enemy
with `dp = 0` and empty multiplier tables (weakness factor 1.0); all
knowledge maps empty. -/
def c2Advisor (ab cdb : ℚ) : BattleAdvisor :=
  { emptyAdvisor with
    styles := [mkStyle "C2S" "c2c" ab cdb],
    skills := [mkSkill "C2K" "C2S" "c2c" 2 ""],
    enemies := [{ name := "C2E", dp := 0, weapon_mult := [], element_mult := [] }] }

/-- The C2 enemy record (`dp = 0`, empty multiplier tables). -/
def c2E : Enemy := { name := "C2E", dp := 0, weapon_mult := [], element_mult := [] }

/-- The closed form of the single style's `StyleScore` in the C2 scenario
(proved equal to `score_style`'s output in `c2_score`). -/
def c2Score (ab cdb : ℚ) : StyleScore :=
  { style := mkStyle "C2S" "c2c" ab cdb, role := "attacker",
    total_score := 2 * (1 + (ab + cdb * 0.35)) + 3 * ab * 0.7,
    attack_score := 2 * (1 + (ab + cdb * 0.35)),
    support_score := 3 * ab, debuff_score := 0,
    breaker_skill := some (mkSkill "C2K" "C2S" "c2c" 2 ""),
    finisher_skill := some (mkSkill "C2K" "C2S" "c2c" 2 ""),
    support_skill := none, debuff_skill := none, weakness_factor := 1 }

/-- C10 data: two styles on distinct characters; `W2` carries an attack bonus
of 0.5 and a support skill (notes contain the support keyword "バフ"). -/
def c10Advisor : BattleAdvisor :=
  { emptyAdvisor with
    styles := [mkStyle "W1" "ch1" 0 0, mkStyle "W2" "ch2" 0.5 0],
    skills := [mkSkill "k1" "W1" "ch1" 2 "", mkSkill "k2" "W2" "ch2" 0.5 "バフ"] }

/-- C5 data: one style with an HP-phase skill (`対HPダメージ30%` notes) and a
DP-phase skill (`対DPダメージ30%` notes), and one enemy with `dp = 1`. -/
def c5Enemy : Enemy := { name := "E5", dp := 1, weapon_mult := [], element_mult := [] }

/-- The advisor of the C5 "may differ" scenario. -/
def c5Advisor : BattleAdvisor :=
  { emptyAdvisor with
    styles := [mkStyle "S5" "c5" 0 0],
    skills := [mkSkill "hpk" "S5" "c5" 1 "対HPダメージ30%",
               mkSkill "dpk" "S5" "c5" 1 "対DPダメージ30%"],
    enemies := [c5Enemy] }

/-! # Theorems -/

/-! ## Helper lemmas -/

/-- Threaded pool scoring computes the same scores as the plain map and
returns the advisor unchanged. -/
theorem scorePoolSt_eq (pool : List Style) (enemy : Option Enemy) (pw pe : String)
    (a : BattleAdvisor) :
    scorePoolSt pool enemy pw pe a =
      (pool.map (fun st => score_style a st enemy pw pe), a) := by
  have h : ∀ (l : List Style) (init : List StyleScore),
      l.foldl
        (fun (acc : List StyleScore × BattleAdvisor) st =>
          (acc.1 ++ [(score_styleSt acc.2 st enemy pw pe).1],
           (score_styleSt acc.2 st enemy pw pe).2))
        (init, a) = (init ++ l.map (fun st => score_style a st enemy pw pe), a) := by
    intro l
    induction l with
    | nil => intro init; simp
    | cons st rest ih =>
      intro init
      simp only [List.foldl_cons, List.map_cons]
      have h2 : (score_styleSt a st enemy pw pe).2 = a := rfl
      rw [h2, ih]
      simp [score_styleSt]
  simpa [scorePoolSt] using h pool []

/-- The first component of the layer loop is the running start plus the sum of
the per-member spec contributions. -/
theorem layersLoop_fst_eq (a : BattleAdvisor) (l : List StyleScore) :
    ∀ s d : ℚ, (layersLoop a (s, d) l).1 = s + (l.map (specSupportContribution a)).sum := by
  induction l with
  | nil => intro s d; simp [layersLoop]
  | cons m rest ih =>
    intro s d
    cases hs : m.support_skill with
    | none =>
      by_cases hr : m.role = "buffer" ∨ 2 ≤ m.support_score <;>
        · simp only [layersLoop, hs, hr, if_true, if_false, List.map_cons, List.sum_cons]
          rw [ih]
          simp [specSupportContribution, hs, hr]
          try ring
    | some sk =>
      by_cases hr : m.role = "buffer" ∨ 2 ≤ m.support_score <;>
        · simp only [layersLoop, hs, hr, if_true, if_false, List.map_cons, List.sum_cons]
          rw [ih]
          simp [specSupportContribution, hs, hr]
          try ring

/-! ## Selection-state lemmas (towards C1 and C4) -/

/-- `add_style` preserves the selection invariant. -/
theorem add_style_inv (st : SelState) (sc : StyleScore) (h : SelInv st) :
    SelInv (add_style st sc).2 := by
  rcases h with ⟨hu, hn⟩
  by_cases hc : sc.style.character ∈ st.used_chars
  · simp only [add_style, if_pos hc]
    exact ⟨hu, hn⟩
  · simp only [add_style, if_neg hc]
    have hnotin : sc.style.character ∉ st.selected.map (fun x => x.style.character) := by
      rw [← hu]; exact hc
    refine ⟨by simp [hu], ?_⟩
    simp only [List.map_append, List.map_cons, List.map_nil]
    rw [List.nodup_append]
    refine ⟨hn, List.nodup_singleton _, ?_⟩
    intro x hx hx1
    simp only [List.mem_singleton] at hx1
    subst hx1
    exact hnotin hx

/-- `add_style` only ever appends to the selection. -/
theorem add_style_ext (st : SelState) (sc : StyleScore) :
    ∃ t, (add_style st sc).2.selected = st.selected ++ t := by
  by_cases hc : sc.style.character ∈ st.used_chars
  · exact ⟨[], by simp [add_style, hc]⟩
  · exact ⟨[sc], by simp [add_style, hc]⟩

/-- A successful `add_style` appends exactly the candidate. -/
theorem add_style_true (st : SelState) (sc : StyleScore)
    (h : (add_style st sc).1 = true) :
    (add_style st sc).2.selected = st.selected ++ [sc] := by
  by_cases hc : sc.style.character ∈ st.used_chars
  · simp [add_style, hc] at h
  · simp [add_style, hc]

/-- A failed `add_style` leaves the state unchanged, and the candidate's
character was already taken. -/
theorem add_style_false (st : SelState) (sc : StyleScore)
    (h : ¬(add_style st sc).1 = true) :
    (add_style st sc).2 = st ∧ sc.style.character ∈ st.used_chars := by
  by_cases hc : sc.style.character ∈ st.used_chars
  · simp [add_style, hc]
  · simp [add_style, hc] at h

/-- `forceWanted` preserves the selection invariant. -/
theorem forceWanted_inv (scores : List StyleScore) (mw : List Style) :
    ∀ st, SelInv st → SelInv (forceWanted scores mw st) := by
  induction mw with
  | nil => intro st h; simpa [forceWanted] using h
  | cons w rest ih =>
    intro st h
    rw [forceWanted]
    cases hsc : scoreFor scores w.style_name with
    | none => exact ih st h
    | some sc => exact ih _ (add_style_inv st sc h)

/-- `forceWanted` only ever appends to the selection. -/
theorem forceWanted_ext (scores : List StyleScore) (mw : List Style) :
    ∀ st, ∃ t, (forceWanted scores mw st).selected = st.selected ++ t := by
  induction mw with
  | nil => intro st; exact ⟨[], by simp [forceWanted]⟩
  | cons w rest ih =>
    intro st
    rw [forceWanted]
    cases hsc : scoreFor scores w.style_name with
    | none => exact ih st
    | some sc =>
      rcases add_style_ext st sc with ⟨t1, ht1⟩
      rcases ih (add_style st sc).2 with ⟨t2, ht2⟩
      exact ⟨t1 ++ t2, by rw [ht2, ht1, List.append_assoc]⟩

/-- `pickMain` preserves the selection invariant. -/
theorem pickMain_inv (l : List StyleScore) :
    ∀ st, SelInv st → SelInv (pickMain l st).2 := by
  induction l with
  | nil => intro st h; simpa [pickMain] using h
  | cons sc rest ih =>
    intro st h
    rw [pickMain]
    by_cases hb : (add_style st sc).1 = true
    · simpa [hb] using add_style_inv st sc h
    · simpa [hb] using ih st h

/-- `pickMain` only ever appends to the selection. -/
theorem pickMain_ext (l : List StyleScore) :
    ∀ st, ∃ t, (pickMain l st).2.selected = st.selected ++ t := by
  induction l with
  | nil => intro st; exact ⟨[], by simp [pickMain]⟩
  | cons sc rest ih =>
    intro st
    rw [pickMain]
    by_cases hb : (add_style st sc).1 = true
    · refine ⟨[sc], ?_⟩
      simp only [hb, if_true]
      exact add_style_true st sc hb
    · simpa [hb] using ih st

/-- The main attacker returned by `pickMain` is in its selection. -/
theorem pickMain_mem (l : List StyleScore) :
    ∀ st m, (pickMain l st).1 = some m → m ∈ (pickMain l st).2.selected := by
  induction l with
  | nil => intro st m h; simp [pickMain] at h
  | cons sc rest ih =>
    intro st m h
    rw [pickMain] at h ⊢
    by_cases hb : (add_style st sc).1 = true
    · simp only [hb, if_true] at h ⊢
      have hm : sc = m := by simpa using h
      subst hm
      rw [add_style_true st sc hb]
      simp
    · simp only [hb, if_false] at h ⊢
      exact ih st m h

/-- The running fold inside `maxByAttack` returns the accumulator or a list
element. -/
theorem foldl_pick_mem (rest : List StyleScore) :
    ∀ acc : StyleScore,
      rest.foldl (fun best x => if best.attack_score < x.attack_score then x else best) acc
        ∈ acc :: rest := by
  induction rest with
  | nil => intro acc; simp
  | cons x rest ih =>
    intro acc
    simp only [List.foldl_cons]
    by_cases hbx : acc.attack_score < x.attack_score
    · rw [if_pos hbx]
      have := ih x
      simp only [List.mem_cons] at this ⊢
      tauto
    · rw [if_neg hbx]
      have := ih acc
      simp only [List.mem_cons] at this ⊢
      tauto

/-- `maxByAttack` returns a member of its list. -/
theorem maxByAttack_mem (l : List StyleScore) (m : StyleScore)
    (h : maxByAttack l = some m) : m ∈ l := by
  cases l with
  | nil => simp [maxByAttack] at h
  | cons sc rest =>
    simp only [maxByAttack, Option.some.injEq] at h
    have := foldl_pick_mem rest sc
    rw [h] at this
    exact this

/-- `debuffPass` preserves the selection invariant. -/
theorem debuffPass_inv (ts : Nat) (l : List StyleScore) :
    ∀ st, SelInv st → SelInv (debuffPass ts l st) := by
  induction l with
  | nil => intro st h; simpa [debuffPass] using h
  | cons sc rest ih =>
    intro st h
    rw [debuffPass]
    by_cases h1 : ts ≤ st.selected.length
    · simpa [h1] using h
    rw [if_neg h1]
    by_cases h2 : sc.debuff_score ≤ 0.4
    · simpa [h2] using h
    rw [if_neg h2]
    by_cases hb : (add_style st sc).1 = true
    · have hinv2 := add_style_inv st sc h
      by_cases h3 :
        1 ≤ ((add_style st sc).2.selected.filter fun x => decide (x.role = "debuffer")).length
      · simpa [hb, h3] using hinv2
      · simpa [hb, h3] using ih (add_style st sc).2 hinv2
    · simpa [hb] using ih st h

/-- `debuffPass` only ever appends to the selection. -/
theorem debuffPass_ext (ts : Nat) (l : List StyleScore) :
    ∀ st, ∃ t, (debuffPass ts l st).selected = st.selected ++ t := by
  induction l with
  | nil => intro st; exact ⟨[], by simp [debuffPass]⟩
  | cons sc rest ih =>
    intro st
    rw [debuffPass]
    by_cases h1 : ts ≤ st.selected.length
    · exact ⟨[], by simp [h1]⟩
    rw [if_neg h1]
    by_cases h2 : sc.debuff_score ≤ 0.4
    · exact ⟨[], by simp [h2]⟩
    rw [if_neg h2]
    by_cases hb : (add_style st sc).1 = true
    · have hsel := add_style_true st sc hb
      by_cases h3 :
        1 ≤ ((add_style st sc).2.selected.filter fun x => decide (x.role = "debuffer")).length
      · exact ⟨[sc], by rw [if_pos hb, if_pos h3]; exact hsel⟩
      · rcases ih (add_style st sc).2 with ⟨t2, ht2⟩
        exact ⟨[sc] ++ t2, by rw [if_pos hb, if_neg h3, ht2, hsel, List.append_assoc]⟩
    · rcases ih st with ⟨t2, ht2⟩
      exact ⟨t2, by rw [if_neg hb]; exact ht2⟩

/-- `bufferPass` preserves the selection invariant. -/
theorem bufferPass_inv (ts : Nat) (l : List StyleScore) :
    ∀ st, SelInv st → SelInv (bufferPass ts l st) := by
  induction l with
  | nil => intro st h; simpa [bufferPass] using h
  | cons sc rest ih =>
    intro st h
    rw [bufferPass]
    by_cases h1 : ts ≤ st.selected.length
    · simpa [h1] using h
    rw [if_neg h1]
    by_cases h2 : sc.support_score ≤ 0.4
    · simpa [h2] using h
    rw [if_neg h2]
    by_cases hb : (add_style st sc).1 = true
    · have hinv2 := add_style_inv st sc h
      by_cases h3 :
        1 ≤ ((add_style st sc).2.selected.filter fun x => decide (x.role = "buffer")).length
      · simpa [hb, h3] using hinv2
      · simpa [hb, h3] using ih (add_style st sc).2 hinv2
    · simpa [hb] using ih st h

/-- `bufferPass` only ever appends to the selection. -/
theorem bufferPass_ext (ts : Nat) (l : List StyleScore) :
    ∀ st, ∃ t, (bufferPass ts l st).selected = st.selected ++ t := by
  induction l with
  | nil => intro st; exact ⟨[], by simp [bufferPass]⟩
  | cons sc rest ih =>
    intro st
    rw [bufferPass]
    by_cases h1 : ts ≤ st.selected.length
    · exact ⟨[], by simp [h1]⟩
    rw [if_neg h1]
    by_cases h2 : sc.support_score ≤ 0.4
    · exact ⟨[], by simp [h2]⟩
    rw [if_neg h2]
    by_cases hb : (add_style st sc).1 = true
    · have hsel := add_style_true st sc hb
      by_cases h3 :
        1 ≤ ((add_style st sc).2.selected.filter fun x => decide (x.role = "buffer")).length
      · exact ⟨[sc], by rw [if_pos hb, if_pos h3]; exact hsel⟩
      · rcases ih (add_style st sc).2 with ⟨t2, ht2⟩
        exact ⟨[sc] ++ t2, by rw [if_pos hb, if_neg h3, ht2, hsel, List.append_assoc]⟩
    · rcases ih st with ⟨t2, ht2⟩
      exact ⟨t2, by rw [if_neg hb]; exact ht2⟩

/-- `layerPass` preserves the selection invariant. -/
theorem layerPass_inv (ts : Nat) (l : List StyleScore) :
    ∀ st, SelInv st → SelInv (layerPass ts l st) := by
  induction l with
  | nil => intro st h; simpa [layerPass] using h
  | cons sc rest ih =>
    intro st h
    rw [layerPass]
    by_cases h1 : ts ≤ st.selected.length
    · simpa [h1] using h
    rw [if_neg h1]
    by_cases hb : (add_style st sc).1 = true
    · have hinv2 := add_style_inv st sc h
      by_cases h3 :
        2 ≤ ((add_style st sc).2.selected.filter fun x => decide (2 ≤ x.support_score)).length ∧
        2 ≤ ((add_style st sc).2.selected.filter fun x => decide (2 ≤ x.debuff_score)).length
      · simpa [hb, h3] using hinv2
      · simpa [hb, h3] using ih (add_style st sc).2 hinv2
    · simpa [hb] using ih st h

/-- `layerPass` only ever appends to the selection. -/
theorem layerPass_ext (ts : Nat) (l : List StyleScore) :
    ∀ st, ∃ t, (layerPass ts l st).selected = st.selected ++ t := by
  induction l with
  | nil => intro st; exact ⟨[], by simp [layerPass]⟩
  | cons sc rest ih =>
    intro st
    rw [layerPass]
    by_cases h1 : ts ≤ st.selected.length
    · exact ⟨[], by simp [h1]⟩
    rw [if_neg h1]
    by_cases hb : (add_style st sc).1 = true
    · have hsel := add_style_true st sc hb
      by_cases h3 :
        2 ≤ ((add_style st sc).2.selected.filter fun x => decide (2 ≤ x.support_score)).length ∧
        2 ≤ ((add_style st sc).2.selected.filter fun x => decide (2 ≤ x.debuff_score)).length
      · exact ⟨[sc], by rw [if_pos hb, if_pos h3]; exact hsel⟩
      · rcases ih (add_style st sc).2 with ⟨t2, ht2⟩
        exact ⟨[sc] ++ t2, by rw [if_pos hb, if_neg h3, ht2, hsel, List.append_assoc]⟩
    · rcases ih st with ⟨t2, ht2⟩
      exact ⟨t2, by rw [if_neg hb]; exact ht2⟩

/-- `fillPass` preserves the selection invariant. -/
theorem fillPass_inv (ts : Nat) (l : List StyleScore) :
    ∀ st, SelInv st → SelInv (fillPass ts l st) := by
  induction l with
  | nil => intro st h; simpa [fillPass] using h
  | cons sc rest ih =>
    intro st h
    rw [fillPass]
    by_cases h1 : ts ≤ st.selected.length
    · simpa [h1] using h
    · simpa [h1] using ih _ (add_style_inv st sc h)

/-- `fillPass` only ever appends to the selection. -/
theorem fillPass_ext (ts : Nat) (l : List StyleScore) :
    ∀ st, ∃ t, (fillPass ts l st).selected = st.selected ++ t := by
  induction l with
  | nil => intro st; exact ⟨[], by simp [fillPass]⟩
  | cons sc rest ih =>
    intro st
    rw [fillPass]
    by_cases h1 : ts ≤ st.selected.length
    · exact ⟨[], by simp [h1]⟩
    · rcases add_style_ext st sc with ⟨t1, ht1⟩
      rcases ih (add_style st sc).2 with ⟨t2, ht2⟩
      exact ⟨t1 ++ t2, by simp [h1, ht2, ht1, List.append_assoc]⟩

/-- Inserting into a sorted list grows it by one. -/
theorem insertSorted_length (lt : α → α → Bool) (x : α) (l : List α) :
    (insertSorted lt x l).length = l.length + 1 := by
  induction l with
  | nil => rfl
  | cons y ys ih =>
    rw [insertSorted]
    by_cases h : lt x y = true
    · simp [h]
    · simp [h, ih]

/-- Stable sorting preserves length. -/
theorem stableSort_length (lt : α → α → Bool) (l : List α) :
    (stableSort lt l).length = l.length := by
  have h : ∀ init : List α,
      (l.foldl (fun acc x => insertSorted lt x acc) init).length = init.length + l.length := by
    induction l with
    | nil => intro init; simp
    | cons x rest ih =>
      intro init
      simp only [List.foldl_cons]
      rw [ih, insertSorted_length, List.length_cons]
      omega
  simpa [stableSort] using h []

/-- Sorting by a descending key preserves non-emptiness. -/
theorem sortDescBy_ne_nil (key : α → ℚ) (l : List α) (h : l ≠ []) :
    sortDescBy key l ≠ [] := by
  intro he
  apply h
  have := stableSort_length (fun x y => decide (key y < key x)) l
  rw [sortDescBy] at he
  rw [he] at this
  simpa using (List.length_eq_zero.mp this.symm)

/-- `pickMain` on a non-empty candidate list leaves a non-empty selection. -/
theorem pickMain_nonempty (l : List StyleScore) (st : SelState) (hinv : SelInv st)
    (hl : l ≠ []) : (pickMain l st).2.selected ≠ [] := by
  cases l with
  | nil => exact absurd rfl hl
  | cons sc rest =>
    rw [pickMain]
    by_cases hb : (add_style st sc).1 = true
    · rw [if_pos hb]
      rw [add_style_true st sc hb]
      simp
    · rw [if_neg hb]
      have hmem := (add_style_false st sc hb).2
      have hselne : st.selected ≠ [] := by
        intro he
        rw [hinv.1, he] at hmem
        simp at hmem
      obtain ⟨t, ht⟩ := pickMain_ext rest st
      rw [ht]
      intro he
      exact hselne (List.append_eq_nil.mp he).1

/-- The state after step 2 satisfies the invariant. -/
theorem selectState2_inv (scores : List StyleScore) (mw : List Style) :
    SelInv (selectState2 scores mw) :=
  pickMain_inv _ _ (forceWanted_inv _ _ _ ⟨rfl, List.nodup_nil⟩)

/-- The final selection state satisfies the invariant. -/
theorem selectState6_inv (scores : List StyleScore) (mw : List Style) (ts : Nat) :
    SelInv (selectState6 scores mw ts) :=
  fillPass_inv ts _ _ (layerPass_inv ts _ _ (bufferPass_inv ts _ _
    (debuffPass_inv ts _ _ (selectState2_inv scores mw))))

/-- Passes 3-5 only ever append to the step-2 selection. -/
theorem selectState6_ext (scores : List StyleScore) (mw : List Style) (ts : Nat) :
    ∃ t, (selectState6 scores mw ts).selected = (selectState2 scores mw).selected ++ t := by
  obtain ⟨t3, h3⟩ := debuffPass_ext ts (sortDescBy (fun x => x.debuff_score) scores)
    (selectState2 scores mw)
  obtain ⟨t4, h4⟩ := bufferPass_ext ts (sortDescBy (fun x => x.support_score) scores)
    (debuffPass ts (sortDescBy (fun x => x.debuff_score) scores) (selectState2 scores mw))
  obtain ⟨t5, h5⟩ := layerPass_ext ts
    (sortDescBy (fun x => max x.support_score x.debuff_score) scores)
    (bufferPass ts (sortDescBy (fun x => x.support_score) scores)
      (debuffPass ts (sortDescBy (fun x => x.debuff_score) scores) (selectState2 scores mw)))
  obtain ⟨t6, h6⟩ := fillPass_ext ts (sortDescBy (fun x => x.total_score) scores)
    (layerPass ts (sortDescBy (fun x => max x.support_score x.debuff_score) scores)
      (bufferPass ts (sortDescBy (fun x => x.support_score) scores)
        (debuffPass ts (sortDescBy (fun x => x.debuff_score) scores) (selectState2 scores mw))))
  refine ⟨t3 ++ (t4 ++ (t5 ++ t6)), ?_⟩
  rw [selectState6, h6, h5, h4, h3]
  simp [List.append_assoc]

/-- The final selection of `selectTeam` satisfies the invariant. -/
theorem selectTeam_inv (scores : List StyleScore) (mw : List Style) (ts : Nat) :
    SelInv (selectTeam scores mw ts).1 :=
  selectState6_inv scores mw ts

/-- The main attacker chosen by `selectTeam` is in the final selection. -/
theorem selectTeam_main_mem (scores : List StyleScore) (mw : List Style) (ts : Nat)
    (m : StyleScore) (h : (selectTeam scores mw ts).2 = some m) :
    m ∈ (selectTeam scores mw ts).1.selected := by
  obtain ⟨t, ht⟩ := selectState6_ext scores mw ts
  have hgoal : (selectTeam scores mw ts).1.selected = (selectState2 scores mw).selected ++ t := by
    simpa [selectTeam] using ht
  rw [hgoal]
  simp only [selectTeam] at h
  cases hp : (pickMain (sortDescBy (fun x => x.attack_score) scores)
      (forceWanted scores mw ⟨[], []⟩)).1 with
  | some m0 =>
    rw [hp] at h
    simp only [firstSome] at h
    have hm : m0 = m := by simpa using h
    subst hm
    have hmem : m0 ∈ (selectState2 scores mw).selected := by
      simpa [selectState2] using pickMain_mem _ _ m0 hp
    exact List.mem_append_left _ hmem
  | none =>
    rw [hp] at h
    cases hq : maxByAttack (selectState2 scores mw).selected with
    | some m1 =>
      rw [hq] at h
      simp only [firstSome] at h
      have hm : m1 = m := by simpa using h
      subst hm
      exact List.mem_append_left _ (maxByAttack_mem _ _ hq)
    | none =>
      rw [hq] at h
      simp only [firstSome] at h
      have hmem := maxByAttack_mem _ _ h
      rw [ht] at hmem
      exact hmem

/-- With a non-empty score list, the final selection is non-empty. -/
theorem selectTeam_nonempty (scores : List StyleScore) (mw : List Style) (ts : Nat)
    (h : scores ≠ []) : (selectTeam scores mw ts).1.selected ≠ [] := by
  have hsort : sortDescBy (fun x => x.attack_score) scores ≠ [] :=
    sortDescBy_ne_nil _ _ h
  have hinv1 : SelInv (forceWanted scores mw ⟨[], []⟩) :=
    forceWanted_inv _ _ _ ⟨rfl, List.nodup_nil⟩
  have h2 := pickMain_nonempty _ _ hinv1 hsort
  obtain ⟨t, ht⟩ := selectState6_ext scores mw ts
  have hgoal : (selectTeam scores mw ts).1.selected = (selectState2 scores mw).selected ++ t := by
    simpa [selectTeam] using ht
  rw [hgoal]
  intro he
  exact h2 (List.append_eq_nil.mp he).1

/-- Putting the main attacker first keeps the characters pairwise distinct:
the filter keeps a character-nodup sublist, and any kept member sharing the
main attacker's character would equal the main attacker (by injectivity on a
nodup map) yet differ in `style_name`. -/
theorem reorderMain_nodup (selected : List StyleScore) (main : Option StyleScore)
    (hn : (selected.map (fun sc => sc.style.character)).Nodup)
    (hm : ∀ m, main = some m → m ∈ selected) :
    ((reorderMain selected main).map (fun sc => sc.style.character)).Nodup := by
  cases main with
  | none => simpa [reorderMain] using hn
  | some m =>
    have hmem := hm m rfl
    simp only [reorderMain, List.map_cons]
    rw [List.nodup_cons]
    constructor
    · intro hx
      rcases List.mem_map.mp hx with ⟨y, hy, hcy⟩
      have hysel : y ∈ selected := (List.mem_filter.mp hy).1
      have hyname : y.style.style_name ≠ m.style.style_name := by
        have := (List.mem_filter.mp hy).2
        simpa using this
      have heq : y = m := List.inj_on_of_nodup_map hn hysel hmem hcy
      exact hyname (by rw [heq])
    · exact ((List.filter_sublist selected).map _).nodup hn

/-- Reordering preserves non-emptiness. -/
theorem reorderMain_ne_nil (selected : List StyleScore) (main : Option StyleScore)
    (h : selected ≠ []) : reorderMain selected main ≠ [] := by
  cases main <;> simp [reorderMain, h]

/-! ## C1: character uniqueness of the returned team -/

/-- C1: for every call to `recommend`, no two members of the returned team
share `style.character` — `add_style` admits a candidate only if its character
is unused, every selection pass goes through `add_style`, and reordering and
truncation preserve the property. -/
theorem C1_character_uniqueness (a : BattleAdvisor) (o w : List String)
    (en pw pe : String) (ts : Nat) :
    (((recommend a o w en pw pe ts).team).map (fun sc => sc.style.character)).Nodup := by
  simp only [recommend, recommendSel]
  rw [List.map_take]
  refine (List.take_sublist _ _).nodup ?_
  exact reorderMain_nodup _ _ (selectTeam_inv _ _ _).2
    (fun m hm => selectTeam_main_mem _ _ _ m hm)

/-! ## C4: team size bound and non-emptiness -/

/-- C4: the returned team never exceeds `team_size`; and when `team_size ≥ 1`
and the candidate pool (matched owned styles, or all styles when none matched,
merged with the matched wanted styles) is non-empty, the returned team is
non-empty. -/
theorem C4_team_size (a : BattleAdvisor) (o w : List String) (en pw pe : String)
    (ts : Nat) :
    (recommend a o w en pw pe ts).team.length ≤ ts ∧
    (1 ≤ ts →
      poolOf a (resolve_style_queries a o).1 (resolve_style_queries a w).1 ≠ [] →
      (recommend a o w en pw pe ts).team ≠ []) := by
  constructor
  · simp only [recommend, recommendSel]
    rw [List.length_take]
    exact min_le_left _ _
  · intro hts hpool
    have hscores :
        boostWanted
          ((poolOf a (resolve_style_queries a o).1 (resolve_style_queries a w).1).map
            (fun st => score_style a st (find_enemy a en) pw pe))
          ((resolve_style_queries a w).1.map (fun s => s.style_name)) ≠ [] := by
      simp only [boostWanted]
      intro he
      rcases List.map_eq_nil_iff.mp (List.map_eq_nil_iff.mp he) with h0
      exact hpool h0
    have hsel := selectTeam_nonempty _ (resolve_style_queries a w).1 ts hscores
    have hre := reorderMain_ne_nil _
      (selectTeam
        (boostWanted
          ((poolOf a (resolve_style_queries a o).1 (resolve_style_queries a w).1).map
            (fun st => score_style a st (find_enemy a en) pw pe))
          ((resolve_style_queries a w).1.map (fun s => s.style_name)))
        (resolve_style_queries a w).1 ts).2 hsel
    simp only [recommend, recommendSel]
    intro he
    apply hre
    have hlen := congrArg List.length he
    rw [List.length_take, List.length_nil] at hlen
    rcases Nat.min_eq_zero_iff.mp hlen with h0 | h0
    · omega
    · exact List.length_eq_zero.mp h0

/-- Witness for C4 at the concrete `c10Advisor` data set. -/
theorem C4_team_size_witness :
    1 ≤ 6 ∧
    poolOf c10Advisor (resolve_style_queries c10Advisor []).1
      (resolve_style_queries c10Advisor []).1 ≠ [] ∧
    (recommend c10Advisor [] [] "" "" "" 6).team ≠ [] := by
  have hpool : poolOf c10Advisor (resolve_style_queries c10Advisor []).1
      (resolve_style_queries c10Advisor []).1 ≠ [] := by
    simp +decide [poolOf, poolInsert, resolve_style_queries, dedupByName, dedupByNameAux,
      c10Advisor, emptyAdvisor, mkStyle]
  exact ⟨by norm_num, hpool,
    (C4_team_size c10Advisor [] [] "" "" "" 6).2 (by norm_num) hpool⟩

/-! ## Resolver lemmas (towards C3) -/

/-- The query loop accumulates exactly the raw resolved styles and raw
unresolved queries. -/
theorem resolveFold_eq (a : BattleAdvisor) (qs : List String) :
    ∀ acc : List Style × List String,
      qs.foldl (resolveStep a) acc =
        (acc.1 ++ rawResolved a qs, acc.2 ++ rawUnresolved a qs) := by
  induction qs with
  | nil => intro acc; simp [rawResolved, rawUnresolved]
  | cons q rest ih =>
    intro acc
    simp only [List.foldl_cons, rawResolved, rawUnresolved, List.filterMap_cons]
    by_cases hq : strTrim q = ""
    · simp only [resolveStep, hq, if_pos]
      rw [ih acc]
      simp [rawResolved, rawUnresolved, hq]
    · cases hr : resolveOne a (strTrim q) with
      | some st =>
        simp only [resolveStep, hq, if_neg, hr]
        rw [ih]
        simp [rawResolved, rawUnresolved, hq, hr]
      | none =>
        simp only [resolveStep, hq, if_neg, hr]
        rw [ih]
        simp [rawResolved, rawUnresolved, hq, hr]

/-- `resolve_style_queries` is the de-duplication of the raw resolved list
paired with the raw unresolved list. -/
theorem resolve_eq (a : BattleAdvisor) (qs : List String) :
    resolve_style_queries a qs =
      (dedupByName (rawResolved a qs), rawUnresolved a qs) := by
  simp [resolve_style_queries, resolveFold_eq a qs ([], [])]

/-- De-duplication yields a sublist. -/
theorem dedupByNameAux_sublist (l : List Style) :
    ∀ seen, List.Sublist (dedupByNameAux seen l) l := by
  induction l with
  | nil => intro seen; simp [dedupByNameAux]
  | cons st rest ih =>
    intro seen
    rw [dedupByNameAux]
    by_cases h : st.style_name ∈ seen
    · rw [if_pos h]
      exact (ih seen).cons _
    · rw [if_neg h]
      exact (ih _).cons₂ _

/-- De-duplication avoids the `seen` names and produces pairwise-distinct
names. -/
theorem dedupByNameAux_nodup (l : List Style) :
    ∀ seen, (∀ t ∈ dedupByNameAux seen l, t.style_name ∉ seen) ∧
      ((dedupByNameAux seen l).map (fun s => s.style_name)).Nodup := by
  induction l with
  | nil => intro seen; simp [dedupByNameAux]
  | cons st rest ih =>
    intro seen
    rw [dedupByNameAux]
    by_cases h : st.style_name ∈ seen
    · rw [if_pos h]
      exact ih seen
    · rw [if_neg h]
      obtain ⟨ih1, ih2⟩ := ih (st.style_name :: seen)
      constructor
      · intro t ht
        rcases List.mem_cons.mp ht with rfl | ht2
        · exact h
        · intro hseen
          exact (ih1 t ht2) (List.mem_cons_of_mem _ hseen)
      · simp only [List.map_cons, List.nodup_cons]
        refine ⟨?_, ih2⟩
        intro hx
        rcases List.mem_map.mp hx with ⟨y, hy, hcy⟩
        exact (ih1 y hy) (by rw [hcy]; exact List.mem_cons_self _ _)

/-- Every raw style name survives de-duplication (or was already seen). -/
theorem dedupByNameAux_complete (l : List Style) :
    ∀ seen, ∀ s ∈ l, s.style_name ∈ seen ∨
      s.style_name ∈ (dedupByNameAux seen l).map (fun t => t.style_name) := by
  induction l with
  | nil => intro seen s hs; simp at hs
  | cons st rest ih =>
    intro seen s hs
    rw [dedupByNameAux]
    rcases List.mem_cons.mp hs with rfl | hs2
    · by_cases h : s.style_name ∈ seen
      · exact Or.inl h
      · rw [if_neg h]
        right
        simp
    · by_cases h : st.style_name ∈ seen
      · rw [if_pos h]
        exact ih seen s hs2
      · rw [if_neg h]
        rcases ih (st.style_name :: seen) s hs2 with hin | hin
        · rcases List.mem_cons.mp hin with he | hseen
          · right; simp [he]
          · exact Or.inl hseen
        · right
          simp only [List.map_cons]
          exact List.mem_cons_of_mem _ hin

/-- De-duplication keeps, for each name, the first style occurring with that
name. -/
theorem dedupByNameAux_first (l : List Style) :
    ∀ seen, ∀ t ∈ dedupByNameAux seen l,
      l.find? (fun s => decide (s.style_name = t.style_name)) = some t := by
  induction l with
  | nil => intro seen t ht; simp [dedupByNameAux] at ht
  | cons st rest ih =>
    intro seen t ht
    rw [dedupByNameAux] at ht
    by_cases h : st.style_name ∈ seen
    · rw [if_pos h] at ht
      have hfind := ih seen t ht
      have hne : st.style_name ≠ t.style_name := by
        intro he
        exact ((dedupByNameAux_nodup rest seen).1 t ht) (he ▸ h)
      rw [List.find?_cons_of_neg _ (by simpa using hne)]
      exact hfind
    · rw [if_neg h] at ht
      rcases List.mem_cons.mp ht with rfl | ht2
      · exact List.find?_cons_of_pos _ (by simp)
      · have hfind := ih _ t ht2
        have hnotin := (dedupByNameAux_nodup rest (st.style_name :: seen)).1 t ht2
        have hne : st.style_name ≠ t.style_name := by
          intro he
          exact hnotin (by rw [← he]; exact List.mem_cons_self _ _)
        rw [List.find?_cons_of_neg _ (by simpa using hne)]
        exact hfind

/-- The raw unresolved list is the filter of the trimmed queries by
"non-empty and matched by no tier". -/
theorem rawUnresolved_eq_filter (a : BattleAdvisor) (qs : List String) :
    rawUnresolved a qs = (qs.map strTrim).filter
      (fun q => decide (q ≠ "") && (resolveOne a q).isNone) := by
  induction qs with
  | nil => rfl
  | cons q rest ih =>
    simp only [rawUnresolved, List.filterMap_cons, List.map_cons, List.filter_cons]
    by_cases hq : strTrim q = ""
    · simpa [hq] using ih
    · cases hr : resolveOne a (strTrim q) with
      | some st => simpa [hq, hr] using ih
      | none => simpa [hq, hr] using ih

/-! ## C3: properties of `resolve_style_queries` -/

/-- C3: for every query list, the resolved output is unique by `style_name`,
is a subsequence of the raw per-query resolution sequence keeping exactly the
first occurrence of each name (first-match order), covers every resolved
name, and the unresolved output lists exactly the trimmed, non-empty queries
matched by no tier, each occurrence appearing exactly once (so a query
matched by no tier appears in it with its multiplicity among the trimmed
queries).  The function is total: absence of a match is data, not an
exception. -/
theorem C3_resolve_properties (a : BattleAdvisor) (qs : List String) :
    (((resolve_style_queries a qs).1.map (fun s => s.style_name)).Nodup) ∧
    (List.Sublist (resolve_style_queries a qs).1 (rawResolved a qs)) ∧
    (∀ t ∈ (resolve_style_queries a qs).1,
      (rawResolved a qs).find? (fun s => decide (s.style_name = t.style_name)) = some t) ∧
    (∀ s ∈ rawResolved a qs,
      s.style_name ∈ (resolve_style_queries a qs).1.map (fun t => t.style_name)) ∧
    ((resolve_style_queries a qs).2 = rawUnresolved a qs) ∧
    (∀ q ∈ qs, strTrim q ≠ "" → resolveOne a (strTrim q) = none →
      (resolve_style_queries a qs).2.count (strTrim q) =
        (qs.map strTrim).count (strTrim q)) := by
  rw [resolve_eq]
  refine ⟨(dedupByNameAux_nodup _ []).2, dedupByNameAux_sublist _ [],
    ?_, ?_, rfl, ?_⟩
  · intro t ht
    exact dedupByNameAux_first _ [] t ht
  · intro s hs
    rcases dedupByNameAux_complete _ [] s hs with h | h
    · simp at h
    · exact h
  · intro q hq hne hnone
    rw [rawUnresolved_eq_filter]
    refine List.count_filter ?_
    simp [hne, hnone]

/-- Witness for C3 at a concrete query list: the advisor `c10Advisor` with one
matching query, one duplicate, and one unmatched query. -/
theorem C3_resolve_properties_witness :
    ((resolve_style_queries c10Advisor ["W1", "W1", "zzz"]).1.map
      (fun s => s.style_name)).Nodup ∧
    (resolve_style_queries c10Advisor ["W1", "W1", "zzz"]).2.count "zzz" =
      ((["W1", "W1", "zzz"].map strTrim).count "zzz") := by
  constructor
  · exact (C3_resolve_properties c10Advisor ["W1", "W1", "zzz"]).1
  · refine (C3_resolve_properties c10Advisor ["W1", "W1", "zzz"]).2.2.2.2.2 "zzz"
      (by simp) ?_ ?_
    · simp +decide [strTrim]
    · simp +decide [strTrim, resolveOne, lookupStyleLast, styleNames, dedupStr, dedupStrAux,
        strLower, strContains, containsAux, strStarts, c10Advisor, emptyAdvisor, mkStyle,
        stableSort, insertSorted, subTierLt, rarity_score, strUpper]

/-! ## C7: determinism of `recommend` -/

/-- C7: recommend() is deterministic — two calls with identical owned/wanted
query lists, enemy name, preferences and team size against the same advisor
data produce identical TeamPlans (the embedding is a pure function of its
arguments; the Python side relies on stable sorts and insertion-ordered
dicts, which the embedding mirrors). -/
theorem C7_determinism (a : BattleAdvisor) (o₁ o₂ w₁ w₂ : List String)
    (en₁ en₂ pw₁ pw₂ pe₁ pe₂ : String) (ts₁ ts₂ : Nat)
    (ho : o₁ = o₂) (hw : w₁ = w₂) (hen : en₁ = en₂) (hpw : pw₁ = pw₂)
    (hpe : pe₁ = pe₂) (hts : ts₁ = ts₂) :
    recommend a o₁ w₁ en₁ pw₁ pe₁ ts₁ = recommend a o₂ w₂ en₂ pw₂ pe₂ ts₂ := by
  subst ho hw hen hpw hpe hts
  rfl

/-- Witness for C7 at a concrete call. -/
theorem C7_determinism_witness :
    recommend emptyAdvisor [] [] "" "" "" 6 = recommend emptyAdvisor [] [] "" "" "" 6 :=
  C7_determinism emptyAdvisor [] [] [] [] "" "" "" "" "" "" 6 6 rfl rfl rfl rfl rfl rfl

/-! ## C9: `recommend` never mutates the advisor's ingested data -/

/-- C9: in the state-passing embedding, the advisor state returned by
`recommendSt` equals the input state (no stage writes any advisor field, the
ingested records, or the knowledge maps), and the plan computed while
threading the state is the plain `recommend` result. -/
theorem C9_no_mutation (a : BattleAdvisor) (o w : List String)
    (en pw pe : String) (ts : Nat) :
    (recommendSt a o w en pw pe ts).2 = a ∧
    (recommendSt a o w en pw pe ts).1 = recommend a o w en pw pe ts := by
  constructor
  · simp [recommendSt, resolve_style_queriesSt, find_enemySt, estimateDamageSt,
      scorePoolSt_eq]
  · simp [recommendSt, recommend, recommendSel, resolve_style_queriesSt, find_enemySt,
      estimateDamageSt, scorePoolSt_eq]

/-! ## C6: the `total_support_layers` formula -/

/-- C6: the member loop of `recommend`'s damage estimation computes
`total_support_layers` as the clamp (at 2.2) of the sum, over members with a
support skill, of the six weighted buff-map lookups by that skill's name, plus
0.05 for each member that is buffer-role or has `support_score ≥ 2.0` — the
spec's closed formula. -/
theorem C6_support_layers (a : BattleAdvisor) (selected : List StyleScore) :
    min 2.2 (layersLoop a (0, 0) selected).1 = specTotalSupportLayers a selected := by
  rw [specTotalSupportLayers, layersLoop_fst_eq a selected 0 0, zero_add]

/-! ## C5: breaker vs finisher under the two-phase model -/

set_option maxRecDepth 8000 in
set_option maxHeartbeats 1000000 in
/-- C5: for any style scored with no enemy or an enemy whose `dp ≤ 0`, the
returned `breaker_skill` equals the `finisher_skill` and both are the best
overall-attack skill; with an enemy whose `dp > 0` they are set independently
and may differ (witness: the concrete `c5Advisor` scenario, where the breaker
is the DP-phase skill and the finisher the HP-phase skill). -/
theorem C5_two_phase :
    (∀ (a : BattleAdvisor) (style : Style) (enemy : Option Enemy) (pw pe : String),
      (∀ e, enemy = some e → e.dp ≤ 0) →
      (score_style a style enemy pw pe).breaker_skill =
          (score_style a style enemy pw pe).finisher_skill ∧
        (score_style a style enemy pw pe).finisher_skill =
          (bestsFor a style enemy pw pe).best_attack_any) ∧
    (∀ (a : BattleAdvisor) (style : Style) (e : Enemy) (pw pe : String), 0 < e.dp →
      (score_style a style (some e) pw pe).finisher_skill =
          (bestsFor a style (some e) pw pe).best_hp_skill ∧
        (score_style a style (some e) pw pe).breaker_skill =
          (bestsFor a style (some e) pw pe).best_dp_skill) ∧
    (0 < c5Enemy.dp ∧
      (score_style c5Advisor (mkStyle "S5" "c5" 0 0) (some c5Enemy) "" "").breaker_skill ≠
        (score_style c5Advisor (mkStyle "S5" "c5" 0 0) (some c5Enemy) "" "").finisher_skill) := by
  refine ⟨?_, ?_, ?_⟩
  · intro a style enemy pw pe h
    cases enemy with
    | none => exact ⟨by simp [score_style], by simp [score_style]⟩
    | some e =>
      have hd : decide (0 < e.dp) = false := decide_eq_false (not_lt.mpr (h e rfl))
      exact ⟨by simp [score_style, hd], by simp [score_style, hd]⟩
  · intro a style e pw pe h
    have hd : decide (0 < e.dp) = true := decide_eq_true h
    exact ⟨by simp [score_style, hd], by simp [score_style, hd]⟩
  · constructor
    · norm_num [c5Enemy]
    · norm_num +decide [score_style, bestsFor, stepBest, initBest, skills_for_style,
        attack_skill_score, weakness_factor, support_skill_score, debuff_skill_score,
        extract_percent_values, scanPercentsAux, matchPercentAt, takeDigits, digitsToNat,
        digitVal, strContains, containsAux, mapGet, mapHas, traitGet, traitHas,
        rarity_score, strUpper, SUPPORT_KEYWORDS, DEBUFF_KEYWORDS, ATTACK_KEYWORDS,
        Style.attack_bonus, Style.crit_damage_bonus, Style.crit_rate_bonus,
        Style.destruction_bonus, mkStyle, mkSkill, c5Advisor, c5Enemy, emptyAdvisor]

/-- Witness for C5's universal parts: at the `c2Advisor` data set the enemy
has `dp = 0` and breaker equals finisher; at the `c5Advisor` data set the
enemy has `dp = 1` and the finisher is the best HP-phase skill. -/
theorem C5_two_phase_witness :
    ((score_style (c2Advisor 0 0) (mkStyle "C2S" "c2c" 0 0)
        (some { name := "C2E", dp := 0, weapon_mult := [], element_mult := [] }) "" "").breaker_skill =
      (score_style (c2Advisor 0 0) (mkStyle "C2S" "c2c" 0 0)
        (some { name := "C2E", dp := 0, weapon_mult := [], element_mult := [] }) "" "").finisher_skill) ∧
    ((score_style c5Advisor (mkStyle "S5" "c5" 0 0) (some c5Enemy) "" "").finisher_skill =
      (bestsFor c5Advisor (mkStyle "S5" "c5" 0 0) (some c5Enemy) "" "").best_hp_skill) :=
  ⟨(C5_two_phase.1 (c2Advisor 0 0) (mkStyle "C2S" "c2c" 0 0)
      (some { name := "C2E", dp := 0, weapon_mult := [], element_mult := [] }) "" ""
      (fun e he => by cases he; norm_num)).1,
    (C5_two_phase.2.1 c5Advisor (mkStyle "S5" "c5" 0 0) c5Enemy "" ""
      (by norm_num [c5Enemy])).1⟩

/-! ## C10: damage, relative score and turn plan are computed over the
untruncated selection -/

set_option maxRecDepth 8000 in
set_option maxHeartbeats 2000000 in
/-- C10: with two forced-added wanted styles and `team_size = 1`, the returned
team is truncated to `[W1]`, yet the estimated damage (4,650,000) still
includes the cut member `W2`'s attack bonus (+0.5) and buffer layer (+0.05) —
re-running the damage estimator on the truncated team gives a different
figure — and `W2` still appears in the turn plan while absent from the team. -/
theorem C10_untruncated_estimation :
    (recommend c10Advisor [] ["W1", "W2"] "" "" "" 1).team.map
      (fun x => x.style.style_name) = ["W1"] ∧
    (recommend c10Advisor [] ["W1", "W2"] "" "" "" 1).estimated_damage = 4650000 ∧
    (recommend c10Advisor [] ["W1", "W2"] "" "" "" 1).estimated_damage ≠
      (estimateDamage c10Advisor (recommend c10Advisor [] ["W1", "W2"] "" "" "" 1).team
        (recommend c10Advisor [] ["W1", "W2"] "" "" "" 1).main_attacker
        (recommend c10Advisor [] ["W1", "W2"] "" "" "" 1).enemy).1 ∧
    strContains ((recommend c10Advisor [] ["W1", "W2"] "" "" "" 1).turn_plan.headD "")
      "W2" = true ∧
    "W2" ∉ (recommend c10Advisor [] ["W1", "W2"] "" "" "" 1).team.map
      (fun x => x.style.style_name) := by
  norm_num +decide [recommend, recommendSel, resolve_style_queries, resolveStep, resolveOne,
    lookupStyleLast, styleNames, dedupStr, dedupStrAux, dedupByName, dedupByNameAux,
    strTrim, strLower, strStarts, subTierLt, stableSort, insertSorted, sortDescBy,
    poolOf, poolInsert, find_enemy, boostWanted, score_style, bestsFor, stepBest, initBest,
    skills_for_style, attack_skill_score, weakness_factor, support_skill_score,
    debuff_skill_score, extract_percent_values, scanPercentsAux, matchPercentAt,
    takeDigits, digitsToNat, digitVal, strContains, containsAux, mapGet, mapHas,
    traitGet, traitHas, rarity_score, strUpper, SUPPORT_KEYWORDS, DEBUFF_KEYWORDS,
    ATTACK_KEYWORDS, selectTeam, selectState6, selectState2, firstSome, forceWanted,
    pickMain, add_style, maxByAttack, debuffPass, bufferPass, layerPass, fillPass,
    scoreFor, estimateDamage, layersLoop, reorderMain, build_turn_plan, turnOneStep,
    joinSep, Style.attack_bonus, Style.crit_damage_bonus, Style.crit_rate_bonus,
    Style.destruction_bonus, mkStyle, mkSkill, c10Advisor, emptyAdvisor]

/-! ## Buff-map update lemmas (towards C8) -/

/-- Head equation for `mapGet`. -/
theorem mapGet_cons (p : String × ℚ) (rest : BuffMap) (k2 : String) :
    mapGet (p :: rest) k2 = if p.1 = k2 then p.2 else mapGet rest k2 := by
  by_cases h : p.1 = k2
  · simp [mapGet, List.find?_cons_of_pos, h]
  · simp [mapGet, List.find?_cons_of_neg, h]

/-- Lookup after a single-key update. -/
theorem mapGet_mapSet (m : BuffMap) (k : String) (v : ℚ) (k2 : String) :
    mapGet (mapSet m k v) k2 = if k2 = k then v else mapGet m k2 := by
  induction m with
  | nil =>
    by_cases h : k2 = k
    · simp [mapSet, mapGet_cons, h]
    · have hk : ¬k = k2 := fun he => h he.symm
      simp [mapSet, mapGet_cons, h, hk, mapGet]
  | cons p rest ih =>
    rw [mapSet]
    by_cases h1 : p.1 = k
    · rw [if_pos h1]
      by_cases h2 : k2 = k
      · simp [mapGet_cons, h2]
      · rw [mapGet_cons, mapGet_cons, if_neg (fun he : k = k2 => h2 he.symm), if_neg h2,
          if_neg (fun he : p.1 = k2 => h2 (h1 ▸ he).symm)]
    · rw [if_neg h1, mapGet_cons, mapGet_cons, ih]
      by_cases h2 : k2 = k
      · rw [if_pos h2, if_pos h2, if_neg (fun he : p.1 = k2 => h1 (h2 ▸ he))]
      · rw [if_neg h2, if_neg h2]

/-- A single-key increase never lowers any lookup. -/
theorem mapGet_le_mapSet (mp : BuffMap) (k : String) (v : ℚ)
    (hv : mapGet mp k ≤ v) (name : String) :
    mapGet mp name ≤ mapGet (mapSet mp k v) name := by
  rw [mapGet_mapSet]
  by_cases h : name = k
  · rw [if_pos h, h]
    exact hv
  · rw [if_neg h]

/-- Bumping a support-feeding buff map leaves the debuff-trait map unchanged. -/
theorem bumpSupportMap_trait (a : BattleAdvisor) (i : Nat) (k : String) (v : ℚ) :
    (bumpSupportMap a i k v).debuff_trait_map = a.debuff_trait_map := by
  rcases i with _ | _ | _ | _ | _ | _ | i <;> rfl

/-- A single-value bump never lowers a member's spec support contribution. -/
theorem specSupportContribution_bump (a : BattleAdvisor) (i : Nat) (k : String)
    (v : ℚ) (hv : mapGet (supportMapOf a i) k ≤ v) (m : StyleScore) :
    specSupportContribution a m ≤ specSupportContribution (bumpSupportMap a i k v) m := by
  cases hs : m.support_skill with
  | none => simp [specSupportContribution, hs]
  | some s =>
    rcases i with _ | _ | _ | _ | _ | _ | i
    case succ.succ.succ.succ.succ.succ =>
      simp [bumpSupportMap]
    all_goals
      simp only [supportMapOf] at hv
      simp only [specSupportContribution, hs, bumpSupportMap]
      gcongr
      exact mapGet_le_mapSet _ _ _ hv _

/-- The debuff-layer accumulator stays non-negative. -/
theorem layersLoop_snd_nonneg (a : BattleAdvisor) (l : List StyleScore) :
    ∀ acc : ℚ × ℚ, 0 ≤ acc.2 → 0 ≤ (layersLoop a acc l).2 := by
  induction l with
  | nil => intro acc h; simpa [layersLoop] using h
  | cons m rest ih =>
    intro acc h
    rw [layersLoop]
    refine ih _ ?_
    cases hd : m.debuff_skill with
    | none =>
      by_cases hr : m.role = "debuffer" ∨ 2 ≤ m.debuff_score <;>
        simp [hd, hr] <;> linarith
    | some d =>
      by_cases ht : traitHas a.debuff_trait_map d.skill_name = true <;>
        by_cases hr : m.role = "debuffer" ∨ 2 ≤ m.debuff_score <;>
          simp [hd, ht, hr] <;> linarith

/-- The debuff-layer component only depends on the debuff-trait map, which a
bump does not touch. -/
theorem layersLoop_snd_eq (a a' : BattleAdvisor)
    (h : a'.debuff_trait_map = a.debuff_trait_map) (l : List StyleScore) :
    ∀ acc acc' : ℚ × ℚ, acc.2 = acc'.2 →
      (layersLoop a' acc l).2 = (layersLoop a acc' l).2 := by
  induction l with
  | nil => intro acc acc' he; simpa [layersLoop] using he
  | cons m rest ih =>
    intro acc acc' he
    rw [layersLoop, layersLoop]
    apply ih
    cases hd : m.debuff_skill with
    | none =>
      by_cases hr : m.role = "debuffer" ∨ 2 ≤ m.debuff_score <;> simp [hd, hr, he]
    | some d =>
      rw [h]
      by_cases ht : traitHas a.debuff_trait_map d.skill_name = true <;>
        by_cases hr : m.role = "debuffer" ∨ 2 ≤ m.debuff_score <;>
          simp [hd, ht, hr, he]

/-! ## C8: buff-map monotonicity -/

set_option maxRecDepth 8000 in
set_option maxHeartbeats 2000000 in
/-- Counterexample to C8 as stated: raising the single crit-damage-buff value
of skill `s` from 0.6 to 0.7 (a `bumpSupportMap` of the `c8Advisor 0.6` data,
with the clamped support total staying well under 2.2) strictly DECREASES the
damage returned by `recommend`: the larger value makes `s` overtake `t` as
the style's best support skill, and `s` feeds the damage layers with weight
0.45 instead of `t`'s 0.7. -/
theorem C8_monotonicity_counterexample :
    c8Advisor 0.7 = bumpSupportMap (c8Advisor 0.6) 4 "s" 0.7 ∧
    mapGet (supportMapOf (c8Advisor 0.6) 4) "s" < 0.7 ∧
    specTotalSupportLayers (c8Advisor 0.7)
      (recommend (c8Advisor 0.7) [] [] "" "" "" 6).team < 2.2 ∧
    (recommend (c8Advisor 0.7) [] [] "" "" "" 6).estimated_damage <
      (recommend (c8Advisor 0.6) [] [] "" "" "" 6).estimated_damage := by
  refine ⟨?_, ?_, ?_, ?_⟩
  · norm_num +decide [c8Advisor, emptyAdvisor, bumpSupportMap, mapSet, mkStyle, mkSkill]
  · norm_num +decide [c8Advisor, emptyAdvisor, supportMapOf, mapGet]
  · norm_num +decide [recommend, recommendSel, resolve_style_queries, resolveStep, resolveOne,
      lookupStyleLast, styleNames, dedupStr, dedupStrAux, dedupByName, dedupByNameAux,
      strTrim, strLower, strStarts, subTierLt, stableSort, insertSorted, sortDescBy,
      poolOf, poolInsert, find_enemy, boostWanted, score_style, bestsFor, stepBest, initBest,
      skills_for_style, attack_skill_score, weakness_factor, support_skill_score,
      debuff_skill_score, extract_percent_values, scanPercentsAux, matchPercentAt,
      takeDigits, digitsToNat, digitVal, strContains, containsAux, mapGet, mapHas,
      traitGet, traitHas, rarity_score, strUpper, SUPPORT_KEYWORDS, DEBUFF_KEYWORDS,
      ATTACK_KEYWORDS, selectTeam, selectState6, selectState2, firstSome, forceWanted,
      pickMain, add_style, maxByAttack, debuffPass, bufferPass, layerPass, fillPass,
      scoreFor, estimateDamage, layersLoop, reorderMain, build_turn_plan, turnOneStep,
      joinSep, Style.attack_bonus, Style.crit_damage_bonus, Style.crit_rate_bonus,
      Style.destruction_bonus, mkStyle, mkSkill, c8Advisor, emptyAdvisor,
      specTotalSupportLayers, specSupportContribution]
  · norm_num +decide [recommend, recommendSel, resolve_style_queries, resolveStep, resolveOne,
      lookupStyleLast, styleNames, dedupStr, dedupStrAux, dedupByName, dedupByNameAux,
      strTrim, strLower, strStarts, subTierLt, stableSort, insertSorted, sortDescBy,
      poolOf, poolInsert, find_enemy, boostWanted, score_style, bestsFor, stepBest, initBest,
      skills_for_style, attack_skill_score, weakness_factor, support_skill_score,
      debuff_skill_score, extract_percent_values, scanPercentsAux, matchPercentAt,
      takeDigits, digitsToNat, digitVal, strContains, containsAux, mapGet, mapHas,
      traitGet, traitHas, rarity_score, strUpper, SUPPORT_KEYWORDS, DEBUFF_KEYWORDS,
      ATTACK_KEYWORDS, selectTeam, selectState6, selectState2, firstSome, forceWanted,
      pickMain, add_style, maxByAttack, debuffPass, bufferPass, layerPass, fillPass,
      scoreFor, estimateDamage, layersLoop, reorderMain, build_turn_plan, turnOneStep,
      joinSep, Style.attack_bonus, Style.crit_damage_bonus, Style.crit_rate_bonus,
      Style.destruction_bonus, mkStyle, mkSkill, c8Advisor, emptyAdvisor]

set_option maxHeartbeats 1000000 in
/-- C8 amended: increasing a single buff-map value that feeds
`total_support_layers` never decreases the output of the damage-estimation
stage for the selection it is given — the full `recommend` can decrease
(see the counterexample) because the bump can change which skill is chosen as
a member's best support and hence the selection itself; monotonicity holds
once the selected members (and their crit-damage bonuses being non-negative)
are fixed. -/
theorem C8_monotonicity_amended (a : BattleAdvisor) (i : Nat) (k : String) (v : ℚ)
    (selected : List StyleScore) (main : StyleScore) (enemy : Option Enemy)
    (hv : mapGet (supportMapOf a i) k ≤ v)
    (hcrit : 0 ≤ main.style.crit_damage_bonus +
      (selected.map (fun x => x.style.crit_damage_bonus)).sum * 0.25) :
    (estimateDamage a selected (some main) enemy).1 ≤
      (estimateDamage (bumpSupportMap a i k v) selected (some main) enemy).1 := by
  have hdebn : 0 ≤ (layersLoop a (0, 0) selected).2 :=
    layersLoop_snd_nonneg a selected (0, 0) (by norm_num)
  have hdeb : (layersLoop (bumpSupportMap a i k v) (0, 0) selected).2 =
      (layersLoop a (0, 0) selected).2 :=
    layersLoop_snd_eq a (bumpSupportMap a i k v) (bumpSupportMap_trait a i k v)
      selected (0, 0) (0, 0) rfl
  have hS : (layersLoop a (0, 0) selected).1 ≤
      (layersLoop (bumpSupportMap a i k v) (0, 0) selected).1 := by
    rw [layersLoop_fst_eq a selected 0 0, layersLoop_fst_eq (bumpSupportMap a i k v) selected 0 0]
    have hsum := List.sum_le_sum
      (fun m (_ : m ∈ selected) => specSupportContribution_bump a i k v hv m)
    simpa using hsum
  have hdmin : (0:ℚ) ≤ min 1.8 (layersLoop a (0, 0) selected).2 :=
    le_min (by norm_num) hdebn
  have hcmin : (0:ℚ) ≤ min 1.2 (main.style.crit_damage_bonus +
      (selected.map (fun x => x.style.crit_damage_bonus)).sum * 0.25) :=
    le_min (by norm_num) hcrit
  simp only [estimateDamage]
  rw [hdeb]
  gcongr

/-- Witness for the amended C8 at a concrete bump of the charge map. -/
theorem C8_monotonicity_amended_witness :
    mapGet (supportMapOf (c8Advisor 0.6) 2) "t" ≤ 0.9 ∧
    (0:ℚ) ≤ c8Member.style.crit_damage_bonus +
      ([c8Member].map (fun x => x.style.crit_damage_bonus)).sum * 0.25 ∧
    (estimateDamage (c8Advisor 0.6) [c8Member] (some c8Member) none).1 ≤
      (estimateDamage (bumpSupportMap (c8Advisor 0.6) 2 "t" 0.9) [c8Member]
        (some c8Member) none).1 := by
  have h1 : mapGet (supportMapOf (c8Advisor 0.6) 2) "t" ≤ 0.9 := by
    norm_num +decide [supportMapOf, mapGet, c8Advisor, emptyAdvisor]
  have h2 : (0:ℚ) ≤ c8Member.style.crit_damage_bonus +
      ([c8Member].map (fun x => x.style.crit_damage_bonus)).sum * 0.25 := by
    norm_num [c8Member, mkStyle, Style.crit_damage_bonus]
  exact ⟨h1, h2,
    C8_monotonicity_amended (c8Advisor 0.6) 2 "t" 0.9 [c8Member] c8Member none h1 h2⟩

/-! ## C2: the closed-form damage fixture -/

set_option maxRecDepth 8000 in
set_option maxHeartbeats 1000000 in
/-- In the C2 scenario the best-skill scan is fully determined: the single
skill (multiplier 2, empty notes) is best in every attack category with
weakness 1, and no support or debuff skill emerges. -/
theorem c2_best (ab cdb : ℚ) :
    bestsFor (c2Advisor ab cdb) (mkStyle "C2S" "c2c" ab cdb) (some c2E) "" "" =
      { best_attack_any := some (mkSkill "C2K" "C2S" "c2c" 2 ""),
        best_attack_any_score := 2,
        best_hp_skill := some (mkSkill "C2K" "C2S" "c2c" 2 ""), best_hp_score := 2,
        best_dp_skill := some (mkSkill "C2K" "C2S" "c2c" 2 ""), best_dp_score := 2,
        best_weakness := 1,
        best_support := none, best_support_score := 0,
        best_debuff := none, best_debuff_score := 0 } := by
  norm_num +decide [bestsFor, stepBest, initBest, skills_for_style, attack_skill_score,
    weakness_factor, support_skill_score, debuff_skill_score, extract_percent_values,
    scanPercentsAux, matchPercentAt, takeDigits, digitsToNat, digitVal, strContains,
    containsAux, mapGet, mapHas, traitGet, traitHas, SUPPORT_KEYWORDS, DEBUFF_KEYWORDS,
    ATTACK_KEYWORDS, c2Advisor, c2E, emptyAdvisor, mkStyle, mkSkill]

set_option maxRecDepth 8000 in
set_option maxHeartbeats 1000000 in
/-- The C2 style's score record in closed form (the `3·ab < 1.6` bound keeps
the support score below the role cutoff, so the style is an attacker). -/
theorem c2_score (ab cdb : ℚ) (hrole : 3 * ab < 1.6) :
    score_style (c2Advisor ab cdb) (mkStyle "C2S" "c2c" ab cdb) (some c2E) "" "" =
      c2Score ab cdb := by
  rw [c2Score]
  simp only [score_style]
  rw [c2_best ab cdb]
  norm_num +decide [mkStyle, mkSkill, Style.attack_bonus, Style.crit_damage_bonus,
    Style.crit_rate_bonus, Style.destruction_bonus, rarity_score, strUpper, strContains,
    containsAux, SUPPORT_KEYWORDS, DEBUFF_KEYWORDS, mapHas, mapGet, c2Advisor, c2E,
    emptyAdvisor]
  constructor
  · intro h
    linarith
  · ring

set_option maxRecDepth 8000 in
set_option maxHeartbeats 1000000 in
/-- Selection in the C2 scenario: the single scored style is picked as the
main attacker and is the whole selection. -/
theorem c2_select (ab cdb : ℚ) :
    selectTeam [c2Score ab cdb] [] 6 =
      (⟨[c2Score ab cdb], ["c2c"]⟩, some (c2Score ab cdb)) := by
  by_cases hb : 3 * ab ≤ (0.4:ℚ) <;>
    norm_num +decide [selectTeam, selectState6, selectState2, forceWanted, pickMain,
      debuffPass, bufferPass, layerPass, fillPass, add_style, firstSome, sortDescBy,
      stableSort, insertSorted, maxByAttack, scoreFor, c2Score, mkStyle, mkSkill, hb]

set_option maxRecDepth 8000 in
set_option maxHeartbeats 1000000 in
/-- Damage estimation over the C2 selection in closed form. -/
theorem c2_damage (ab cdb : ℚ) (hrole : 3 * ab < 1.6) :
    (estimateDamage (c2Advisor ab cdb) [c2Score ab cdb] (some (c2Score ab cdb))
        (some c2E)).1 =
      1000000 * 2 * (1 + ab) * (1.5 + min 1.2 (1.25 * cdb)) := by
  have hsup : ¬((c2Score ab cdb).role = "buffer" ∨ 2 ≤ (c2Score ab cdb).support_score) := by
    simp only [c2Score]
    push_neg
    exact ⟨by decide, by linarith⟩
  have hdeb : ¬((c2Score ab cdb).role = "debuffer" ∨ 2 ≤ (c2Score ab cdb).debuff_score) := by
    simp only [c2Score]
    push_neg
    exact ⟨by decide, by norm_num⟩
  have hn2 : ¬(2:ℚ) ≤ ab * 3 := by linarith
  norm_num +decide [estimateDamage, layersLoop, hsup, hdeb, hn2, c2Score, mkStyle, mkSkill,
    Style.attack_bonus, Style.crit_damage_bonus, c2E]
  ring_nf
  rw [if_neg hn2]
  norm_num

set_option maxRecDepth 8000 in
set_option maxHeartbeats 2000000 in
/-- Counterexample to C2 as stated: with `attack_bonus = 1` (and all the
claim's conditions satisfied — one style, finisher multiplier 2.0, weakness
1.0, no buff-map or keyword contributions, enemy `dp = 0`) the style's
support score `3·attack_bonus = 3` crosses both the buffer-role cutoff and
the `support_score ≥ 2` threshold, so the member contributes the +0.05
support layer and the damage is 6,150,000, not the claimed
`10⁶ × 2 × (1 + 1) × 1.5 = 6,000,000`. -/
theorem C2_scenario_counterexample :
    find_enemy (c2Advisor 1 0) "C2E" = some c2E ∧
    (recommend (c2Advisor 1 0) [] [] "C2E" "" "" 6).estimated_damage = 6150000 ∧
    (recommend (c2Advisor 1 0) [] [] "C2E" "" "" 6).estimated_damage ≠
      1000000 * 2 * (1 + 1) * (1.5 + min 1.2 (1.25 * 0)) := by
  refine ⟨by norm_num +decide [find_enemy, c2Advisor, emptyAdvisor, c2E], ?_, ?_⟩ <;>
    norm_num +decide [recommend, recommendSel, resolve_style_queries, resolveStep, resolveOne,
      lookupStyleLast, styleNames, dedupStr, dedupStrAux, dedupByName, dedupByNameAux,
      strTrim, strLower, strStarts, subTierLt, stableSort, insertSorted, sortDescBy,
      poolOf, poolInsert, find_enemy, boostWanted, score_style, bestsFor, stepBest, initBest,
      skills_for_style, attack_skill_score, weakness_factor, support_skill_score,
      debuff_skill_score, extract_percent_values, scanPercentsAux, matchPercentAt,
      takeDigits, digitsToNat, digitVal, strContains, containsAux, mapGet, mapHas,
      traitGet, traitHas, rarity_score, strUpper, SUPPORT_KEYWORDS, DEBUFF_KEYWORDS,
      ATTACK_KEYWORDS, selectTeam, selectState6, selectState2, firstSome, forceWanted,
      pickMain, add_style, maxByAttack, debuffPass, bufferPass, layerPass, fillPass,
      scoreFor, estimateDamage, layersLoop, reorderMain, build_turn_plan, turnOneStep,
      joinSep, Style.attack_bonus, Style.crit_damage_bonus, Style.crit_rate_bonus,
      Style.destruction_bonus, mkStyle, mkSkill, c2Advisor, c2E, emptyAdvisor]

set_option maxRecDepth 8000 in
set_option maxHeartbeats 2000000 in
/-- C2 amended: in the scenario data set (one style with attack bonus `ab`
and crit-damage bonus `cdb`, one skill with multiplier 2.0 and empty notes,
weakness 1.0, no knowledge-map entries, enemy with `dp = 0`), PROVIDED the
style's support score `3·ab` stays below the 1.6 role cutoff (so the sole
member earns no support layer), `recommend` returns
`estimated_damage = 10⁶ × 2 × (1 + ab) × (1.5 + min(1.2, 1.25·cdb))` with
zero support and debuff layers and `break_phase_factor = 1`. -/
theorem C2_scenario_amended (ab cdb : ℚ) (hrole : 3 * ab < 1.6) :
    (recommend (c2Advisor ab cdb) [] [] "C2E" "" "" 6).estimated_damage =
      1000000 * 2 * (1 + ab) * (1.5 + min 1.2 (1.25 * cdb)) := by
  have henemy : find_enemy (c2Advisor ab cdb) "C2E" = some c2E := by
    norm_num +decide [find_enemy, c2Advisor, emptyAdvisor, c2E]
  have hres : (resolve_style_queries (c2Advisor ab cdb) ([] : List String)).1 = [] := rfl
  have hpool : poolOf (c2Advisor ab cdb) [] [] = [mkStyle "C2S" "c2c" ab cdb] := by
    norm_num +decide [poolOf, poolInsert, c2Advisor, emptyAdvisor]
  simp only [recommend, recommendSel, henemy, hres, List.map_nil]
  simp only [boostWanted, List.map_cons, List.map_nil, List.not_mem_nil, if_false]
  simp only [hpool, List.map_cons, List.map_nil, c2_score ab cdb hrole, List.map_id']
  rw [c2_select ab cdb]
  exact c2_damage ab cdb hrole

/-- Witness for the amended C2 at `ab = 0.1`, `cdb = 0.5`. -/
theorem C2_scenario_amended_witness :
    3 * (0.1:ℚ) < 1.6 ∧
    (recommend (c2Advisor 0.1 0.5) [] [] "C2E" "" "" 6).estimated_damage =
      1000000 * 2 * (1 + 0.1) * (1.5 + min 1.2 (1.25 * 0.5)) :=
  ⟨by norm_num, C2_scenario_amended 0.1 0.5 (by norm_num)⟩
